import Mathlib

/-!
Verification of the fast-recursive-SHA256 engine (x64 SHA Extensions and
ARM Cryptography Extensions backends, reference / fast / pipelined drivers)
against its natural-language specification.

The source is C++ with hardware intrinsics.  The embedding models each
128-bit vector register as four 32-bit words (`V4`), each SHA intrinsic by
its architectural pseudocode (Intel SDM for SHA256RNDS2 / SHA256MSG1 /
SHA256MSG2, Arm ARM for SHA256H / SHA256H2 / SHA256SU0 / SHA256SU1), and
each source function by its dataflow over those operations.  Byte buffers
are `List Nat` with every element below 256; 32-bit words are `Nat` taken
modulo 2^32 at every arithmetic step, exactly where the machine wraps.
-/

namespace RS

/-- Addition of two 32-bit words, wrapping modulo 2^32. -/
def add32 (a b : Nat) : Nat := (a + b) % 4294967296

/-- Rotate a 32-bit word right by `n` (valid for `x < 2^32`, `n ≤ 32`). -/
def rotr32 (x n : Nat) : Nat := (x / 2 ^ n + x % 2 ^ n * 2 ^ (32 - n)) % 4294967296

/-- SHA-256 choice function: `(x AND y) XOR ((NOT x) AND z)`. -/
def Ch (x y z : Nat) : Nat := Nat.xor (Nat.land x y) (Nat.land (Nat.xor x 4294967295) z)

/-- SHA-256 majority function. -/
def Maj (x y z : Nat) : Nat :=
  Nat.xor (Nat.xor (Nat.land x y) (Nat.land x z)) (Nat.land y z)

/-- SHA-256 big sigma 0: rotations by 2, 13, 22. -/
def bigSigma0 (x : Nat) : Nat := Nat.xor (Nat.xor (rotr32 x 2) (rotr32 x 13)) (rotr32 x 22)

/-- SHA-256 big sigma 1: rotations by 6, 11, 25. -/
def bigSigma1 (x : Nat) : Nat := Nat.xor (Nat.xor (rotr32 x 6) (rotr32 x 11)) (rotr32 x 25)

/-- SHA-256 small sigma 0: rotations by 7, 18 and shift by 3. -/
def smallSigma0 (x : Nat) : Nat := Nat.xor (Nat.xor (rotr32 x 7) (rotr32 x 18)) (x / 8)

/-- SHA-256 small sigma 1: rotations by 17, 19 and shift by 10. -/
def smallSigma1 (x : Nat) : Nat := Nat.xor (Nat.xor (rotr32 x 17) (rotr32 x 19)) (x / 1024)

/-- A 128-bit vector register as four 32-bit words, `w0` the least
significant doubleword. -/
structure V4 where
  w0 : Nat
  w1 : Nat
  w2 : Nat
  w3 : Nat
deriving Repr, DecidableEq

/-- Little-endian reading of four bytes as a 32-bit word. -/
def le32 (b0 b1 b2 b3 : Nat) : Nat := b0 + b1 * 256 + b2 * 65536 + b3 * 16777216

/-- Byte swap of a 32-bit word (valid for `x < 2^32`). -/
def bswap32 (x : Nat) : Nat :=
  x % 256 * 16777216 + x / 256 % 256 * 65536 + x / 65536 % 256 * 256 + x / 16777216 % 256

/-- Model of an unaligned 16-byte vector load from a byte buffer
(little-endian words, as on both target architectures). -/
def loadu (l : List Nat) (off : Nat) : V4 :=
  ⟨le32 (l.getD off 0) (l.getD (off + 1) 0) (l.getD (off + 2) 0) (l.getD (off + 3) 0),
   le32 (l.getD (off + 4) 0) (l.getD (off + 5) 0) (l.getD (off + 6) 0) (l.getD (off + 7) 0),
   le32 (l.getD (off + 8) 0) (l.getD (off + 9) 0) (l.getD (off + 10) 0) (l.getD (off + 11) 0),
   le32 (l.getD (off + 12) 0) (l.getD (off + 13) 0) (l.getD (off + 14) 0) (l.getD (off + 15) 0)⟩

/-- Per-32-bit-lane byte reversal: models `_mm_shuffle_epi8` with the fixed
`SHUF_MASK` of the x64 sources and `vrev32q_u8` of the ARM sources. -/
def rev32 (a : V4) : V4 := ⟨bswap32 a.w0, bswap32 a.w1, bswap32 a.w2, bswap32 a.w3⟩

/-- Lanewise 32-bit wrapping addition (`_mm_add_epi32` / `vaddq_u32`). -/
def addv (a b : V4) : V4 :=
  ⟨add32 a.w0 b.w0, add32 a.w1 b.w1, add32 a.w2 b.w2, add32 a.w3 b.w3⟩

/-- Little-endian bytes of a 32-bit word, as stored to memory. -/
def bytesOfWordLE (w : Nat) : List Nat :=
  [w % 256, w / 256 % 256, w / 65536 % 256, w / 16777216 % 256]

/-- Big-endian bytes of a 32-bit word. -/
def bytesOfWordBE (w : Nat) : List Nat :=
  [w / 16777216 % 256, w / 65536 % 256, w / 256 % 256, w % 256]

/-- Model of a 16-byte vector store (little-endian words). -/
def storeV4 (v : V4) : List Nat :=
  bytesOfWordLE v.w0 ++ bytesOfWordLE v.w1 ++ bytesOfWordLE v.w2 ++ bytesOfWordLE v.w3

/-- The 64 SHA-256 round constants, exactly the `K64` table of every
source file. -/
def K64 : List Nat :=
  [0x428A2F98, 0x71374491, 0xB5C0FBCF, 0xE9B5DBA5, 0x3956C25B, 0x59F111F1, 0x923F82A4, 0xAB1C5ED5,
   0xD807AA98, 0x12835B01, 0x243185BE, 0x550C7DC3, 0x72BE5D74, 0x80DEB1FE, 0x9BDC06A7, 0xC19BF174,
   0xE49B69C1, 0xEFBE4786, 0x0FC19DC6, 0x240CA1CC, 0x2DE92C6F, 0x4A7484AA, 0x5CB0A9DC, 0x76F988DA,
   0x983E5152, 0xA831C66D, 0xB00327C8, 0xBF597FC7, 0xC6E00BF3, 0xD5A79147, 0x06CA6351, 0x14292967,
   0x27B70A85, 0x2E1B2138, 0x4D2C6DFC, 0x53380D13, 0x650A7354, 0x766A0ABB, 0x81C2C92E, 0x92722C85,
   0xA2BFE8A1, 0xA81A664B, 0xC24B8B70, 0xC76C51A3, 0xD192E819, 0xD6990624, 0xF40E3585, 0x106AA070,
   0x19A4C116, 0x1E376C08, 0x2748774C, 0x34B0BCB5, 0x391C0CB3, 0x4ED8AA4A, 0x5B9CCA4F, 0x682E6FF3,
   0x748F82EE, 0x78A5636F, 0x84C87814, 0x8CC70208, 0x90BEFFFA, 0xA4506CEB, 0xBEF9A3F7, 0xC67178F2]

/-- Round constant `K64[i]`. -/
def kword (i : Nat) : Nat := K64.getD i 0

/-- The vector `{K64[j], K64[j+1], K64[j+2], K64[j+3]}` loaded by
`_mm_load_si128(&K64[j])` / `vld1q_u32(&K64[j])`. -/
def kvec (j : Nat) : V4 := ⟨kword j, kword (j + 1), kword (j + 2), kword (j + 3)⟩

/-- Four consecutive values of a word sequence starting at index `j`,
packed as one vector. -/
def grp (f : Nat → Nat) (j : Nat) : V4 := ⟨f j, f (j + 1), f (j + 2), f (j + 3)⟩

/-- The eight 32-bit working variables of SHA-256. -/
structure St where
  a : Nat
  b : Nat
  c : Nat
  d : Nat
  e : Nat
  f : Nat
  g : Nat
  h : Nat
deriving Repr, DecidableEq

/-- One standard SHA-256 round (FIPS 180-4 step 3 of the compression
loop), folding schedule word `w` and round constant `k` into the state. -/
def specRound (s : St) (w k : Nat) : St :=
  let t1 := add32 s.h (add32 (bigSigma1 s.e) (add32 (Ch s.e s.f s.g) (add32 w k)))
  let t2 := add32 (bigSigma0 s.a) (Maj s.a s.b s.c)
  ⟨add32 t1 t2, s.a, s.b, s.c, add32 s.d t1, s.e, s.f, s.g⟩

/-- The standard two-sigma message-schedule recurrence: words 0–15 come
from the block, word `t ≥ 16` is
`sigma1(W[t-2]) + W[t-7] + sigma0(W[t-15]) + W[t-16]` modulo 2^32. -/
def schedule (m : Nat → Nat) : Nat → Nat
  | i + 16 =>
      add32 (add32 (smallSigma1 (schedule m (i + 14))) (schedule m (i + 9)))
        (add32 (smallSigma0 (schedule m (i + 1))) (schedule m i))
  | i => m i

/-- `n` standard rounds, round `i` consuming `w i` and `k i`. -/
def roundLoop (s : St) (w k : Nat → Nat) : Nat → St
  | 0 => s
  | n + 1 => specRound (roundLoop s w k n) (w n) (k n)

/-- Lanewise 32-bit addition of two states (the feed-forward step). -/
def addSt (x y : St) : St :=
  ⟨add32 x.a y.a, add32 x.b y.b, add32 x.c y.c, add32 x.d y.d,
   add32 x.e y.e, add32 x.f y.f, add32 x.g y.g, add32 x.h y.h⟩

/-- The standard SHA-256 initial chaining value. -/
def initSt : St :=
  ⟨0x6A09E667, 0xBB67AE85, 0x3C6EF372, 0xA54FF53A, 0x510E527F, 0x9B05688C, 0x1F83D9AB, 0x5BE0CD19⟩

/-- Standard single-block SHA-256 compression at word level: expand the
block words `m` by the schedule recurrence, run 64 rounds from `s`, and
add the pre-round state back (feed-forward). -/
def specCompress (s : St) (m : Nat → Nat) : St :=
  addSt (roundLoop s (schedule m) kword 64) s

/-- The 32 constant padding bytes appended to the 32-byte hash value by the
reference drivers: `memset` 32 zero bytes, overwrite byte 0 with `0x80` and
the last eight bytes with `"\x00\x00\x00\x00\x00\x00\x01\x00"`. -/
def padBytes : List Nat :=
  0x80 :: List.replicate 23 0 ++ [0, 0, 0, 0, 0, 0, 0x01, 0x00]

/-- Big-endian word `j` of a byte buffer. -/
def beWord (l : List Nat) (j : Nat) : Nat :=
  l.getD (4 * j) 0 * 16777216 + l.getD (4 * j + 1) 0 * 65536 +
    l.getD (4 * j + 2) 0 * 256 + l.getD (4 * j + 3) 0

/-- Big-endian serialization of the eight state words as 32 bytes. -/
def bytesOfSt (t : St) : List Nat :=
  bytesOfWordBE t.a ++ bytesOfWordBE t.b ++ bytesOfWordBE t.c ++ bytesOfWordBE t.d ++
    bytesOfWordBE t.e ++ bytesOfWordBE t.f ++ bytesOfWordBE t.g ++ bytesOfWordBE t.h

/-- Written from the spec (sections 3–4, 8): the single-block hash of a
32-byte value — pad with the fixed suffix to one 64-byte block, read the
block as 16 big-endian words, expand by the standard two-sigma recurrence,
run 64 standard rounds from the standard initial chaining value, add the
initial state back, and serialize the eight words big-endian. -/
def SingleBlockHash (hash : List Nat) : List Nat :=
  bytesOfSt (specCompress initSt (beWord (hash.take 32 ++ padBytes)))

/-- `n`-fold self-application of `SingleBlockHash`, the spec's meaning of
`Engine(H, n)`. -/
def hashIter (hash : List Nat) : Nat → List Nat
  | 0 => hash
  | n + 1 => SingleBlockHash (hashIter hash n)

/-- A well-formed buffer of `n` 32-byte hash values: correct length and
every element an actual byte. -/
def wfBuf (n : Nat) (l : List Nat) : Prop := l.length = 32 * n ∧ ∀ b ∈ l, b < 256

instance (n : Nat) (l : List Nat) : Decidable (wfBuf n l) := by
  unfold wfBuf; infer_instance

namespace X64

/-- One internal round of `SHA256RNDS2` per the Intel SDM pseudocode:
`A' = Ch(E,F,G) + Σ1(E) + WK + H + Maj(A,B,C) + Σ0(A)`,
`E' = Ch(E,F,G) + Σ1(E) + WK + H + D`, other variables shifted. -/
def rnds2Round (s : St) (wk : Nat) : St :=
  let x := add32 (add32 (add32 (Ch s.e s.f s.g) (bigSigma1 s.e)) wk) s.h
  ⟨add32 (add32 x (Maj s.a s.b s.c)) (bigSigma0 s.a), s.a, s.b, s.c,
   add32 x s.d, s.e, s.f, s.g⟩

/-- `_mm_sha256rnds2_epu32(src1, src2, wk)`: `src1` holds CDGH
(`C` in bits 127:96), `src2` holds ABEF (`A` in bits 127:96), the two
round inputs are `wk.w0` and `wk.w1`; the result is the updated ABEF. -/
def sha256rnds2 (src1 src2 wk : V4) : V4 :=
  let s0 : St := ⟨src2.w3, src2.w2, src1.w3, src1.w2, src2.w1, src2.w0, src1.w1, src1.w0⟩
  let s2 := rnds2Round (rnds2Round s0 wk.w0) wk.w1
  ⟨s2.f, s2.e, s2.b, s2.a⟩

/-- `_mm_sha256msg1_epu32` per the Intel SDM: add `sigma0` of the next
word to each of the four words of `src1` (`src2.w0` supplying word 4). -/
def sha256msg1 (v1 v2 : V4) : V4 :=
  ⟨add32 v1.w0 (smallSigma0 v1.w1), add32 v1.w1 (smallSigma0 v1.w2),
   add32 v1.w2 (smallSigma0 v1.w3), add32 v1.w3 (smallSigma0 v2.w0)⟩

/-- `_mm_sha256msg2_epu32` per the Intel SDM: finish four schedule words,
the upper two folding `sigma1` of the lower two just computed. -/
def sha256msg2 (v1 v2 : V4) : V4 :=
  let r0 := add32 v1.w0 (smallSigma1 v2.w2)
  let r1 := add32 v1.w1 (smallSigma1 v2.w3)
  let r2 := add32 v1.w2 (smallSigma1 r0)
  let r3 := add32 v1.w3 (smallSigma1 r1)
  ⟨r0, r1, r2, r3⟩

/-- `_mm_shuffle_epi32` with immediate `0x0E`: move the upper two words
down (words 2,3,0,0). -/
def shuf0E (a : V4) : V4 := ⟨a.w2, a.w3, a.w0, a.w0⟩

/-- `_mm_shuffle_epi32` with immediate `0xB1`: swap adjacent words. -/
def shufB1 (a : V4) : V4 := ⟨a.w1, a.w0, a.w3, a.w2⟩

/-- `_mm_shuffle_epi32` with immediate `0x1B`: reverse the four words. -/
def shuf1B (a : V4) : V4 := ⟨a.w3, a.w2, a.w1, a.w0⟩

/-- `_mm_alignr_epi8(a, b, 8)`: bytes 8–23 of the concatenation `a‖b`. -/
def alignr8 (a b : V4) : V4 := ⟨b.w2, b.w3, a.w0, a.w1⟩

/-- `_mm_alignr_epi8(a, b, 4)`: bytes 4–19 of the concatenation `a‖b`. -/
def alignr4 (a b : V4) : V4 := ⟨b.w1, b.w2, b.w3, a.w0⟩

/-- `_mm_blend_epi16(a, b, 0xF0)`: lower two words from `a`, upper two
from `b`. -/
def blendF0 (a b : V4) : V4 := ⟨a.w0, a.w1, b.w2, b.w3⟩

/-- One four-round block of the x64 kernels: with `st = (STATE0, STATE1)`
(ABEF, CDGH) and `wk` the four schedule+constant words,
`STATE1 = SHA256RNDS2(STATE1, STATE0, wk)` then
`STATE0 = SHA256RNDS2(STATE0, STATE1, wk >> 64)`. -/
def stateStep (st : V4 × V4) (wk : V4) : V4 × V4 :=
  let s1 := sha256rnds2 st.2 st.1 wk
  let s0 := sha256rnds2 st.1 s1 (shuf0E wk)
  (s0, s1)

/-- `n` four-round blocks, block `i` consuming `wks i`. -/
def stateLoop (st : V4 × V4) (wks : Nat → V4) : Nat → V4 × V4
  | 0 => st
  | n + 1 => stateStep (stateLoop st wks n) (wks n)

/-- The schedule-extension dataflow shared by every four-round block of
the x64 kernels: `MSGTMP = SHA256MSG2(SHA256MSG1(g0, g1) + alignr(g3, g2, 4), g3)`. -/
def nextGroup (g0 g1 g2 g3 : V4) : V4 :=
  sha256msg2 (addv (sha256msg1 g0 g1) (alignr4 g3 g2)) g3

/-- The sixteen message-schedule vectors produced by `compress_digest` of
`rec_sha256_reference.cxx`: groups 0–3 are the byte-shuffled loads of the
64-byte block, each later group is the `MSG1`/`alignr`/`MSG2` dataflow. -/
def msgGroups (last : List Nat) : Nat → V4
  | 0 => rev32 (loadu last 0)
  | 1 => rev32 (loadu last 16)
  | 2 => rev32 (loadu last 32)
  | 3 => rev32 (loadu last 48)
  | i + 4 =>
      nextGroup (msgGroups last i) (msgGroups last (i + 1))
        (msgGroups last (i + 2)) (msgGroups last (i + 3))

/-- The pre-rotated initial state constants `ABEF_INIT` / `CDGH_INIT` of
`rec_sha256_fast.cxx` (`_mm_set_epi64x` puts the first argument in the
upper half). -/
def ABEF_INIT : V4 := ⟨0x9B05688C, 0x510E527F, 0xBB67AE85, 0x6A09E667⟩

/-- Companion of `ABEF_INIT` holding C, D, G, H. -/
def CDGH_INIT : V4 := ⟨0x5BE0CD19, 0x1F83D9AB, 0xA54FF53A, 0x3C6EF372⟩

/-- `HPAD0_CACHE` of `rec_sha256_fast.cxx`: schedule words 8–11 of the
constant padding. -/
def HPAD0_CACHE : V4 := ⟨0x80000000, 0, 0, 0⟩

/-- `HPAD1_CACHE` of `rec_sha256_fast.cxx`: schedule words 12–15 of the
constant padding. -/
def HPAD1_CACHE : V4 := ⟨0, 0, 0, 0x00000100⟩

/-- The prologue of `compress_digest`: load the eight state words and
rearrange them into the (ABEF, CDGH) form the SHA instructions need. -/
def packState (s : List Nat) : V4 × V4 :=
  let st0 := shufB1 ⟨s.getD 0 0, s.getD 1 0, s.getD 2 0, s.getD 3 0⟩
  let st1 := shuf1B ⟨s.getD 4 0, s.getD 5 0, s.getD 6 0, s.getD 7 0⟩
  (alignr8 st0 st1, blendF0 st1 st0)

/-- The epilogue of `compress_digest` and of the fast loop body: shuffle
(FEBA, DCHG) and recombine into the plain word order A..D, E..H. -/
def unpackState (s0 s1 : V4) : V4 × V4 :=
  (blendF0 (shuf1B s0) (shufB1 s1), alignr8 (shufB1 s1) (shuf1B s0))

/-- `compress_digest` of `rec_sha256_reference.cxx` at word level: pack
the state, run the sixteen four-round blocks over the shuffled message
schedule, add the saved state back and restore plain word order. -/
def compress_digest (state last : List Nat) : List Nat :=
  let p := packState state
  let fin := stateLoop p (fun i => addv (msgGroups last i) (kvec (4 * i))) 16
  let u := unpackState (addv fin.1 p.1) (addv fin.2 p.2)
  [u.1.w0, u.1.w1, u.1.w2, u.1.w3, u.2.w0, u.2.w1, u.2.w2, u.2.w3]

/-- The sixteen message-schedule vectors of the `rec_sha256_fast.cxx`
iteration body: groups 0–1 are the kept hash words, groups 2–3 the cached
padding constants, later groups the same dataflow as the reference. -/
def fastGroups (h0 h1 : V4) : Nat → V4
  | 0 => h0
  | 1 => h1
  | 2 => HPAD0_CACHE
  | 3 => HPAD1_CACHE
  | i + 4 =>
      nextGroup (fastGroups h0 h1 i) (fastGroups h0 h1 (i + 1))
        (fastGroups h0 h1 (i + 2)) (fastGroups h0 h1 (i + 3))

/-- One iteration of the `rec_sha256_fast.cxx` loop on the kept
(HASH0_SAVE, HASH1_SAVE) pair: sixteen four-round blocks from the cached
initial state, feed-forward, and reorder back to plain word order. -/
def fastStep (p : V4 × V4) : V4 × V4 :=
  let fin := stateLoop (ABEF_INIT, CDGH_INIT)
    (fun i => addv (fastGroups p.1 p.2 i) (kvec (4 * i))) 16
  unpackState (addv fin.1 ABEF_INIT) (addv fin.2 CDGH_INIT)

/-- The iteration loop of `rec_sha256_fast.cxx`: the loop body applied
`num_iters` times. -/
def fastLoop (p : V4 × V4) : Nat → V4 × V4
  | 0 => p
  | n + 1 => fastStep (fastLoop p n)

end X64

/-- The 64-byte block built by `rec_sha256_reference` (and `rsha256_ref`)
on every iteration: the 32 hash bytes followed by the constant padding. -/
def refPaddedBlock (hash : List Nat) : List Nat := hash.take 32 ++ padBytes

/-- One iteration of `rec_sha256_reference` of `rec_sha256_reference.cxx`
(x64 backend): fresh initial state, padded block from the current hash,
one compression, byte-swap each word and store. -/
def refStepX64 (hash : List Nat) : List Nat :=
  let state := [0x6A09E667, 0xBB67AE85, 0x3C6EF372, 0xA54FF53A,
                0x510E527F, 0x9B05688C, 0x1F83D9AB, 0x5BE0CD19]
  ((X64.compress_digest state (refPaddedBlock hash)).map bswap32).flatMap bytesOfWordLE

/-- `rec_sha256_reference` of `rec_sha256_reference.cxx`: `num_iters`
iterations of the reference step (0 iterations returns the input). -/
def rec_sha256_reference (hash : List Nat) : Nat → List Nat
  | 0 => hash
  | n + 1 => refStepX64 (rec_sha256_reference hash n)

/-- `rec_sha256_fast` of `rec_sha256_fast.cxx`: shuffle the hash bytes
once, run the fast loop, shuffle back and store. -/
def rec_sha256_fast (hash : List Nat) (num_iters : Nat) : List Nat :=
  if num_iters = 0 then hash
  else
    let p := X64.fastLoop (rev32 (loadu hash 0), rev32 (loadu hash 16)) num_iters
    storeV4 (rev32 p.1) ++ storeV4 (rev32 p.2)

namespace ARM

/-- One round of the Arm ARM `SHA256hash` pseudocode on
`x = ABCD` (`A = x.w0`) and `y = EFGH` (`E = y.w0`):
`t = H + Σ1(E) + Ch(E,F,G) + wk`, new `A = t + Σ0(A) + Maj(A,B,C)`,
new `E = t + D`, other variables shifted by the 256-bit rotate. -/
def armRound (x y : V4) (wk : Nat) : V4 × V4 :=
  let t := add32 (add32 (add32 y.w3 (bigSigma1 y.w0)) (Ch y.w0 y.w1 y.w2)) wk
  (⟨add32 (add32 t (bigSigma0 x.w0)) (Maj x.w0 x.w1 x.w2), x.w0, x.w1, x.w2⟩,
   ⟨add32 t x.w3, y.w0, y.w1, y.w2⟩)

/-- The four-round `SHA256hash` helper shared by `SHA256H` and `SHA256H2`. -/
def sha256hash4 (x y w : V4) : V4 × V4 :=
  let p0 := armRound x y w.w0
  let p1 := armRound p0.1 p0.2 w.w1
  let p2 := armRound p1.1 p1.2 w.w2
  armRound p2.1 p2.2 w.w3

/-- `vsha256hq_u32(abcd, efgh, wk)`: the updated ABCD after four rounds. -/
def vsha256hq (vd vn vm : V4) : V4 := (sha256hash4 vd vn vm).1

/-- `vsha256h2q_u32(efgh, abcd, wk)`: the updated EFGH after four rounds
(`Vn` carries the pre-round ABCD). -/
def vsha256h2q (vd vn vm : V4) : V4 := (sha256hash4 vn vd vm).2

/-- `vsha256su0q_u32` per the Arm ARM: add `sigma0` of the following word
to each word of `vd` (`vn.w0` supplying word 4). -/
def vsha256su0 (vd vn : V4) : V4 :=
  ⟨add32 vd.w0 (smallSigma0 vd.w1), add32 vd.w1 (smallSigma0 vd.w2),
   add32 vd.w2 (smallSigma0 vd.w3), add32 vd.w3 (smallSigma0 vn.w0)⟩

/-- `vsha256su1q_u32` per the Arm ARM: finish four schedule words, adding
`sigma1` of words 14–15 (`vm.w2`, `vm.w3`) then of the two words just
computed, plus words 9–12 drawn from `vn` and `vm.w0`. -/
def vsha256su1 (vd vn vm : V4) : V4 :=
  let r0 := add32 (add32 (smallSigma1 vm.w2) vn.w1) vd.w0
  let r1 := add32 (add32 (smallSigma1 vm.w3) vn.w2) vd.w1
  let r2 := add32 (add32 (smallSigma1 r0) vn.w3) vd.w2
  let r3 := add32 (add32 (smallSigma1 r1) vm.w0) vd.w3
  ⟨r0, r1, r2, r3⟩

/-- One four-round block of the ARM kernels: with `st = (STATE0, STATE1)`
(ABCD, EFGH), `STATEV = STATE0; STATE0 = SHA256H(STATE0, STATE1, wk);
STATE1 = SHA256H2(STATE1, STATEV, wk)`. -/
def stateStep (st : V4 × V4) (wk : V4) : V4 × V4 :=
  (vsha256hq st.1 st.2 wk, vsha256h2q st.2 st.1 wk)

/-- `n` four-round blocks, block `i` consuming `wks i`. -/
def stateLoop (st : V4 × V4) (wks : Nat → V4) : Nat → V4 × V4
  | 0 => st
  | n + 1 => stateStep (stateLoop st wks n) (wks n)

/-- The schedule-extension dataflow of the ARM kernels:
`SHA256SU1(SHA256SU0(g0, g1), g2, g3)`. -/
def nextGroup (g0 g1 g2 g3 : V4) : V4 := vsha256su1 (vsha256su0 g0 g1) g2 g3

/-- The sixteen message-schedule vectors of `compress_digest` of
`rsha256_ref_arm.cxx`: byte-reversed loads, then the `SU0`/`SU1` dataflow. -/
def msgGroups (last : List Nat) : Nat → V4
  | 0 => rev32 (loadu last 0)
  | 1 => rev32 (loadu last 16)
  | 2 => rev32 (loadu last 32)
  | 3 => rev32 (loadu last 48)
  | i + 4 =>
      nextGroup (msgGroups last i) (msgGroups last (i + 1))
        (msgGroups last (i + 2)) (msgGroups last (i + 3))

/-- `ABCD_INIT` of the ARM fast sources. -/
def ABCD_INIT : V4 := ⟨0x6A09E667, 0xBB67AE85, 0x3C6EF372, 0xA54FF53A⟩

/-- `EFGH_INIT` of the ARM fast sources. -/
def EFGH_INIT : V4 := ⟨0x510E527F, 0x9B05688C, 0x1F83D9AB, 0x5BE0CD19⟩

/-- `HPAD0_CACHE` of the ARM fast sources. -/
def HPAD0_CACHE : V4 := ⟨0x80000000, 0, 0, 0⟩

/-- `HPAD1_CACHE` of the ARM fast sources. -/
def HPAD1_CACHE : V4 := ⟨0, 0, 0, 0x00000100⟩

/-- `compress_digest` of `rsha256_ref_arm.cxx` at word level: load the
state words directly, run sixteen four-round blocks, feed-forward, store. -/
def compress_digest (state last : List Nat) : List Nat :=
  let s0 : V4 := ⟨state.getD 0 0, state.getD 1 0, state.getD 2 0, state.getD 3 0⟩
  let s1 : V4 := ⟨state.getD 4 0, state.getD 5 0, state.getD 6 0, state.getD 7 0⟩
  let fin := stateLoop (s0, s1) (fun i => addv (msgGroups last i) (kvec (4 * i))) 16
  let u0 := addv fin.1 s0
  let u1 := addv fin.2 s1
  [u0.w0, u0.w1, u0.w2, u0.w3, u1.w0, u1.w1, u1.w2, u1.w3]

/-- The sixteen message-schedule vectors of the `rsha256_fast_arm.cxx`
iteration body.  Group 6 is special in the source: it starts from the
precomputed constant `HPAD0_CACHE` (`MSGTMP2 = HPAD0_CACHE`) instead of
computing `SHA256SU0(HPAD0_CACHE, HPAD1_CACHE)`, which equals it. -/
def fastGroups (h0 h1 : V4) : Nat → V4
  | 0 => h0
  | 1 => h1
  | 2 => HPAD0_CACHE
  | 3 => HPAD1_CACHE
  | 6 => vsha256su1 HPAD0_CACHE (fastGroups h0 h1 4) (fastGroups h0 h1 5)
  | i + 4 =>
      nextGroup (fastGroups h0 h1 i) (fastGroups h0 h1 (i + 1))
        (fastGroups h0 h1 (i + 2)) (fastGroups h0 h1 (i + 3))

/-- One iteration of the `rsha256_fast_arm.cxx` loop on the kept
(HASH0_SAVE, HASH1_SAVE) pair. -/
def fastStep (p : V4 × V4) : V4 × V4 :=
  let fin := stateLoop (ABCD_INIT, EFGH_INIT)
    (fun i => addv (fastGroups p.1 p.2 i) (kvec (4 * i))) 16
  (addv fin.1 ABCD_INIT, addv fin.2 EFGH_INIT)

/-- The iteration loop of `rsha256_fast_arm.cxx`: the loop body applied
`num_iters` times. -/
def fastLoop (p : V4 × V4) : Nat → V4 × V4
  | 0 => p
  | n + 1 => fastStep (fastLoop p n)

end ARM

/-- One iteration of `rsha256_ref` of `rsha256_ref_arm.cxx`: fresh initial
state, padded block, one compression, byte-swap each word and store. -/
def refStepARM (hash : List Nat) : List Nat :=
  let state := [0x6A09E667, 0xBB67AE85, 0x3C6EF372, 0xA54FF53A,
                0x510E527F, 0x9B05688C, 0x1F83D9AB, 0x5BE0CD19]
  ((ARM.compress_digest state (refPaddedBlock hash)).map bswap32).flatMap bytesOfWordLE

/-- `rsha256_ref` of `rsha256_ref_arm.cxx`. -/
def rsha256_ref (hash : List Nat) : Nat → List Nat
  | 0 => hash
  | n + 1 => refStepARM (rsha256_ref hash n)

/-- `rsha256_fast` of `rsha256_fast_arm.cxx`: byte-reverse the hash words
once, run the fast loop, reverse back and store. -/
def rsha256_fast (hash : List Nat) (num_iters : Nat) : List Nat :=
  if num_iters = 0 then hash
  else
    let p := ARM.fastLoop (rev32 (loadu hash 0), rev32 (loadu hash 16)) num_iters
    storeV4 (rev32 p.1) ++ storeV4 (rev32 p.2)

namespace PL

/-- The per-lane message-schedule vectors of `rsha256pl_fast_arm.cxx`
(each lane of `rsha256_fast_x1` … `rsha256_fast_x4` runs this dataflow on
its own `_Pk` variables; it is the dataflow of `rsha256_fast_arm.cxx`,
group 6 starting from the precomputed `HPAD0_CACHE`). -/
def laneGroups (h0 h1 : V4) : Nat → V4
  | 0 => h0
  | 1 => h1
  | 2 => ARM.HPAD0_CACHE
  | 3 => ARM.HPAD1_CACHE
  | 6 => ARM.vsha256su1 ARM.HPAD0_CACHE (laneGroups h0 h1 4) (laneGroups h0 h1 5)
  | i + 4 =>
      ARM.nextGroup (laneGroups h0 h1 i) (laneGroups h0 h1 (i + 1))
        (laneGroups h0 h1 (i + 2)) (laneGroups h0 h1 (i + 3))

/-- One iteration of one lane of the pipelined ARM loops. -/
def laneStep (p : V4 × V4) : V4 × V4 :=
  let fin := ARM.stateLoop (ARM.ABCD_INIT, ARM.EFGH_INIT)
    (fun i => addv (laneGroups p.1 p.2 i) (kvec (4 * i))) 16
  (addv fin.1 ARM.ABCD_INIT, addv fin.2 ARM.EFGH_INIT)

/-- The `rsha256_fast_x1` iteration loop (one lane). -/
def loop1 (p : V4 × V4) : Nat → V4 × V4
  | 0 => p
  | n + 1 => laneStep (loop1 p n)

/-- The `rsha256_fast_x2` iteration loop: both lanes advanced in
lock-step inside one loop body. -/
def loop2 (p : (V4 × V4) × (V4 × V4)) : Nat → (V4 × V4) × (V4 × V4)
  | 0 => p
  | n + 1 => (laneStep (loop2 p n).1, laneStep (loop2 p n).2)

/-- The `rsha256_fast_x3` iteration loop: three lanes in lock-step. -/
def loop3 (p : (V4 × V4) × (V4 × V4) × (V4 × V4)) :
    Nat → (V4 × V4) × (V4 × V4) × (V4 × V4)
  | 0 => p
  | n + 1 =>
      (laneStep (loop3 p n).1, laneStep (loop3 p n).2.1, laneStep (loop3 p n).2.2)

/-- The `rsha256_fast_x4` iteration loop: four lanes in lock-step. -/
def loop4 (p : (V4 × V4) × (V4 × V4) × (V4 × V4) × (V4 × V4)) :
    Nat → (V4 × V4) × (V4 × V4) × (V4 × V4) × (V4 × V4)
  | 0 => p
  | n + 1 =>
      (laneStep (loop4 p n).1, laneStep (loop4 p n).2.1, laneStep (loop4 p n).2.2.1,
        laneStep (loop4 p n).2.2.2)

/-- Load lane `j` (byte offset `32·j`) of a pipelined buffer. -/
def laneIn (hash : List Nat) (j : Nat) : V4 × V4 :=
  (rev32 (loadu hash (32 * j)), rev32 (loadu hash (32 * j + 16)))

/-- Store one lane back to bytes. -/
def laneOut (p : V4 × V4) : List Nat := storeV4 (rev32 p.1) ++ storeV4 (rev32 p.2)

end PL

/-- `rsha256_fast_x1` of `rsha256pl_fast_arm.cxx` (the source is a copy of
`rsha256_fast_arm.cxx` with `_P1`-suffixed variables). -/
def rsha256_fast_x1 (hash : List Nat) (num_iters : Nat) : List Nat :=
  if num_iters = 0 then hash
  else PL.laneOut (PL.loop1 (PL.laneIn hash 0) num_iters)

/-- `rsha256_fast_x2` of `rsha256pl_fast_arm.cxx`: two independent lanes
advanced in lock-step over a 64-byte buffer. -/
def rsha256_fast_x2 (hash : List Nat) (num_iters : Nat) : List Nat :=
  if num_iters = 0 then hash
  else
    let q := PL.loop2 (PL.laneIn hash 0, PL.laneIn hash 1) num_iters
    PL.laneOut q.1 ++ PL.laneOut q.2

/-- `rsha256_fast_x3` of `rsha256pl_fast_arm.cxx`: three lanes over a
96-byte buffer. -/
def rsha256_fast_x3 (hash : List Nat) (num_iters : Nat) : List Nat :=
  if num_iters = 0 then hash
  else
    let q := PL.loop3 (PL.laneIn hash 0, PL.laneIn hash 1, PL.laneIn hash 2) num_iters
    PL.laneOut q.1 ++ PL.laneOut q.2.1 ++ PL.laneOut q.2.2

/-- `rsha256_fast_x4` of `rsha256pl_fast_arm.cxx`: four lanes over a
128-byte buffer. -/
def rsha256_fast_x4 (hash : List Nat) (num_iters : Nat) : List Nat :=
  if num_iters = 0 then hash
  else
    let q := PL.loop4 (PL.laneIn hash 0, PL.laneIn hash 1, PL.laneIn hash 2, PL.laneIn hash 3)
      num_iters
    PL.laneOut q.1 ++ PL.laneOut q.2.1 ++ PL.laneOut q.2.2.1 ++ PL.laneOut q.2.2.2

namespace PLX64

/-- Modelled from the spec: `rsha256pl_fast_x64.cxx` (the x64 backend of
the pipelined drivers) is named by the pipelined README but its source is
not present; per spec §4.3–§4.4 each of its lanes advances by the same
per-iteration transformation as the x64 fast driver, with the lanes of one
call advanced in lock-step.  Lane input/output conventions follow the x64
fast driver. -/
def laneIn (hash : List Nat) (j : Nat) : V4 × V4 :=
  (rev32 (loadu hash (32 * j)), rev32 (loadu hash (32 * j + 16)))

/-- Modelled from the spec: store one lane of the missing x64 pipelined
driver back to bytes. -/
def laneOut (p : V4 × V4) : List Nat := storeV4 (rev32 p.1) ++ storeV4 (rev32 p.2)

/-- Modelled from the spec: the single-lane loop of the missing
`rsha256pl_fast_x64.cxx`. -/
def loop1 (p : V4 × V4) : Nat → V4 × V4
  | 0 => p
  | n + 1 => X64.fastStep (loop1 p n)

/-- Modelled from the spec: the two-lane lock-step loop of the missing
`rsha256pl_fast_x64.cxx`. -/
def loop2 (p : (V4 × V4) × (V4 × V4)) : Nat → (V4 × V4) × (V4 × V4)
  | 0 => p
  | n + 1 => (X64.fastStep (loop2 p n).1, X64.fastStep (loop2 p n).2)

/-- Modelled from the spec: the three-lane lock-step loop of the missing
`rsha256pl_fast_x64.cxx`. -/
def loop3 (p : (V4 × V4) × (V4 × V4) × (V4 × V4)) :
    Nat → (V4 × V4) × (V4 × V4) × (V4 × V4)
  | 0 => p
  | n + 1 =>
      (X64.fastStep (loop3 p n).1, X64.fastStep (loop3 p n).2.1, X64.fastStep (loop3 p n).2.2)

/-- Modelled from the spec: the four-lane lock-step loop of the missing
`rsha256pl_fast_x64.cxx`. -/
def loop4 (p : (V4 × V4) × (V4 × V4) × (V4 × V4) × (V4 × V4)) :
    Nat → (V4 × V4) × (V4 × V4) × (V4 × V4) × (V4 × V4)
  | 0 => p
  | n + 1 =>
      (X64.fastStep (loop4 p n).1, X64.fastStep (loop4 p n).2.1,
        X64.fastStep (loop4 p n).2.2.1, X64.fastStep (loop4 p n).2.2.2)

end PLX64

/-- Modelled from the spec: `rsha256_fast_x1` of the missing
`rsha256pl_fast_x64.cxx` ("identical to `rsha256_fast()`"). -/
def rsha256plx64_fast_x1 (hash : List Nat) (num_iters : Nat) : List Nat :=
  if num_iters = 0 then hash
  else PLX64.laneOut (PLX64.loop1 (PLX64.laneIn hash 0) num_iters)

/-- Modelled from the spec: `rsha256_fast_x2` of the missing
`rsha256pl_fast_x64.cxx`. -/
def rsha256plx64_fast_x2 (hash : List Nat) (num_iters : Nat) : List Nat :=
  if num_iters = 0 then hash
  else
    let q := PLX64.loop2 (PLX64.laneIn hash 0, PLX64.laneIn hash 1) num_iters
    PLX64.laneOut q.1 ++ PLX64.laneOut q.2

/-- Modelled from the spec: `rsha256_fast_x3` of the missing
`rsha256pl_fast_x64.cxx`. -/
def rsha256plx64_fast_x3 (hash : List Nat) (num_iters : Nat) : List Nat :=
  if num_iters = 0 then hash
  else
    let q := PLX64.loop3 (PLX64.laneIn hash 0, PLX64.laneIn hash 1, PLX64.laneIn hash 2)
      num_iters
    PLX64.laneOut q.1 ++ PLX64.laneOut q.2.1 ++ PLX64.laneOut q.2.2

/-- Modelled from the spec: `rsha256_fast_x4` of the missing
`rsha256pl_fast_x64.cxx`. -/
def rsha256plx64_fast_x4 (hash : List Nat) (num_iters : Nat) : List Nat :=
  if num_iters = 0 then hash
  else
    let q := PLX64.loop4 (PLX64.laneIn hash 0, PLX64.laneIn hash 1, PLX64.laneIn hash 2,
      PLX64.laneIn hash 3) num_iters
    PLX64.laneOut q.1 ++ PLX64.laneOut q.2.1 ++ PLX64.laneOut q.2.2.1 ++ PLX64.laneOut q.2.2.2

/-- The lower four state words as one vector. -/
def stLo (t : St) : V4 := ⟨t.a, t.b, t.c, t.d⟩

/-- The upper four state words as one vector. -/
def stHi (t : St) : V4 := ⟨t.e, t.f, t.g, t.h⟩

/-- The ABEF packing of a state used by the x64 SHA instructions
(`A` in the top word). -/
def abef (s : St) : V4 := ⟨s.f, s.e, s.b, s.a⟩

/-- The CDGH packing of a state used by the x64 SHA instructions. -/
def cdgh (s : St) : V4 := ⟨s.h, s.g, s.d, s.c⟩

/-- Read eight state words from a list. -/
def stOfList (l : List Nat) : St :=
  ⟨l.getD 0 0, l.getD 1 0, l.getD 2 0, l.getD 3 0,
   l.getD 4 0, l.getD 5 0, l.getD 6 0, l.getD 7 0⟩

/-- Write eight state words to a list. -/
def listOfSt (t : St) : List Nat := [t.a, t.b, t.c, t.d, t.e, t.f, t.g, t.h]

/-- Word `j` of a 64-byte block as the x64/ARM kernels read it: a
little-endian load followed by a per-lane byte reversal. -/
def blockWord (last : List Nat) (j : Nat) : Nat :=
  bswap32 (le32 (last.getD (4 * j) 0) (last.getD (4 * j + 1) 0)
    (last.getD (4 * j + 2) 0) (last.getD (4 * j + 3) 0))

/-- The sixteen block words of the fast kernels' implicit padded block:
the eight kept hash words followed by the constant padding words. -/
def wordsMsg (h0 h1 : V4) : Nat → Nat
  | 0 => h0.w0
  | 1 => h0.w1
  | 2 => h0.w2
  | 3 => h0.w3
  | 4 => h1.w0
  | 5 => h1.w1
  | 6 => h1.w2
  | 7 => h1.w3
  | 8 => 0x80000000
  | 15 => 0x00000100
  | _ => 0

/-- Four standard rounds consuming one schedule vector and one constant
vector. -/
def round4 (s : St) (gw gk : V4) : St :=
  specRound (specRound (specRound (specRound s gw.w0 gk.w0) gw.w1 gk.w1) gw.w2 gk.w2) gw.w3 gk.w3

/-- Parse a 32-byte lane into the two word vectors the fast drivers keep. -/
def parsePair (hash : List Nat) : V4 × V4 := (rev32 (loadu hash 0), rev32 (loadu hash 16))

/-- Serialize the two kept word vectors of a lane back to 32 bytes. -/
def serializePair (p : V4 × V4) : List Nat := storeV4 (rev32 p.1) ++ storeV4 (rev32 p.2)

/-- Every word of the vector is a 32-bit value. -/
def wfV4 (v : V4) : Prop :=
  v.w0 < 4294967296 ∧ v.w1 < 4294967296 ∧ v.w2 < 4294967296 ∧ v.w3 < 4294967296

/-- Every word of the lane pair is a 32-bit value. -/
def wfPair (p : V4 × V4) : Prop := wfV4 p.1 ∧ wfV4 p.2

/-- Every word of the state is a 32-bit value. -/
def wfSt (t : St) : Prop :=
  t.a < 4294967296 ∧ t.b < 4294967296 ∧ t.c < 4294967296 ∧ t.d < 4294967296 ∧
    t.e < 4294967296 ∧ t.f < 4294967296 ∧ t.g < 4294967296 ∧ t.h < 4294967296

/-- `local_hashStart` of the benchmark harness: the starting value of the
self-test vectors. -/
def local_hashStart : List Nat :=
  [0x2E, 0xFD, 0x64, 0xA5, 0x54, 0x63, 0xB5, 0xB5, 0x54, 0xC4, 0xA2, 0xE2, 0x2A, 0x47, 0x2D,
   0xA2, 0x3B, 0xB7, 0x6E, 0x63, 0x75, 0x8C, 0xE3, 0xC8, 0x92, 0x76, 0xAB, 0xF0, 0xE9, 0xAD,
   0x8B, 0x15]

/-- `local_hashEnd1x` of the benchmark harness: the expected value after
one iteration from `local_hashStart`. -/
def local_hashEnd1x : List Nat :=
  [0x77, 0x46, 0x1D, 0x8E, 0xD8, 0xA2, 0x20, 0x6F, 0x82, 0x36, 0x66, 0x18, 0xD3, 0x63, 0xBA,
   0xA2, 0xFF, 0xDD, 0x99, 0x1B, 0x5D, 0x2D, 0x80, 0x98, 0x6D, 0xBC, 0xF8, 0x2F, 0x58, 0xA4,
   0xF3, 0xF3]

/-! ## Round-level correspondences -/

/-- One internal round of the Intel `SHA256RNDS2` pseudocode computes one
standard SHA-256 round when its input is a schedule word plus constant. -/
theorem rnds2Round_spec (s : St) (w k : Nat) :
    X64.rnds2Round s (add32 w k) = specRound s w k := by
  simp only [X64.rnds2Round, specRound, add32, St.mk.injEq, and_true, true_and]
  exact ⟨by omega, by omega⟩

/-- One four-round block of the x64 kernels advances the packed state by
four standard rounds. -/
theorem stateStep_spec (s : St) (gw gk : V4) :
    X64.stateStep (abef s, cdgh s) (addv gw gk) =
      (abef (round4 s gw gk), cdgh (round4 s gw gk)) := by
  simp only [X64.stateStep, X64.sha256rnds2, X64.shuf0E, addv, abef, cdgh, round4]
  simp only [rnds2Round_spec]
  rfl

/-- One round of the Arm `SHA256hash` pseudocode computes one standard
SHA-256 round. -/
theorem armRound_spec (s : St) (w k : Nat) :
    ARM.armRound (stLo s) (stHi s) (add32 w k) =
      (stLo (specRound s w k), stHi (specRound s w k)) := by
  simp only [ARM.armRound, specRound, stLo, stHi, add32, Prod.mk.injEq, V4.mk.injEq,
    and_true, true_and]
  exact ⟨by omega, by omega⟩

/-- The Arm four-round helper advances the state by four standard rounds. -/
theorem sha256hash4_spec (s : St) (gw gk : V4) :
    ARM.sha256hash4 (stLo s) (stHi s) (addv gw gk) =
      (stLo (round4 s gw gk), stHi (round4 s gw gk)) := by
  simp only [ARM.sha256hash4, addv, round4]
  simp only [armRound_spec]

/-- One four-round block of the ARM kernels advances the state by four
standard rounds. -/
theorem armStateStep_spec (s : St) (gw gk : V4) :
    ARM.stateStep (stLo s, stHi s) (addv gw gk) =
      (stLo (round4 s gw gk), stHi (round4 s gw gk)) := by
  simp only [ARM.stateStep, ARM.vsha256hq, ARM.vsha256h2q]
  rw [sha256hash4_spec]

/-! ## Message-schedule correspondences -/

/-- Unfolding of the schedule recurrence at index `i + 16`. -/
theorem schedule_add16 (m : Nat → Nat) (i : Nat) :
    schedule m (i + 16) =
      add32 (add32 (smallSigma1 (schedule m (i + 14))) (schedule m (i + 9)))
        (add32 (smallSigma0 (schedule m (i + 1))) (schedule m i)) := by
  rw [schedule]

/-- `SHA256MSG2` produces four given schedule words once each of its four
output sums is known to produce them (the upper two feeding back the lower
two outputs). -/
theorem sha256msg2_eq (v1 v2 : V4) (t16 t17 t18 t19 : Nat)
    (h16 : add32 v1.w0 (smallSigma1 v2.w2) = t16)
    (h17 : add32 v1.w1 (smallSigma1 v2.w3) = t17)
    (h18 : add32 v1.w2 (smallSigma1 t16) = t18)
    (h19 : add32 v1.w3 (smallSigma1 t17) = t19) :
    X64.sha256msg2 v1 v2 = ⟨t16, t17, t18, t19⟩ := by
  simp only [X64.sha256msg2, V4.mk.injEq]
  exact ⟨h16, h17, by rw [h16]; exact h18, by rw [h17]; exact h19⟩

/-- `SHA256SU1` produces four given schedule words once each of its four
output sums is known to produce them. -/
theorem vsha256su1_eq (vd vn vm : V4) (t16 t17 t18 t19 : Nat)
    (h16 : add32 (add32 (smallSigma1 vm.w2) vn.w1) vd.w0 = t16)
    (h17 : add32 (add32 (smallSigma1 vm.w3) vn.w2) vd.w1 = t17)
    (h18 : add32 (add32 (smallSigma1 t16) vn.w3) vd.w2 = t18)
    (h19 : add32 (add32 (smallSigma1 t17) vm.w0) vd.w3 = t19) :
    ARM.vsha256su1 vd vn vm = ⟨t16, t17, t18, t19⟩ := by
  simp only [ARM.vsha256su1, V4.mk.injEq]
  exact ⟨h16, h17, by rw [h16]; exact h18, by rw [h17]; exact h19⟩

/-- The x64 schedule-extension dataflow computes the next four words of
the standard schedule recurrence. -/
theorem intelNext_schedule (m : Nat → Nat) (j : Nat) :
    X64.nextGroup (grp (schedule m) j) (grp (schedule m) (j + 4)) (grp (schedule m) (j + 8))
      (grp (schedule m) (j + 12)) = grp (schedule m) (j + 16) := by
  have e16 := schedule_add16 m j
  have e17 := schedule_add16 m (j + 1)
  have e18 := schedule_add16 m (j + 2)
  have e19 := schedule_add16 m (j + 3)
  rw [show j + 1 + 16 = j + 17 from by omega, show j + 1 + 14 = j + 15 from by omega,
    show j + 1 + 9 = j + 10 from by omega, show j + 1 + 1 = j + 2 from by omega] at e17
  rw [show j + 2 + 16 = j + 18 from by omega, show j + 2 + 14 = j + 16 from by omega,
    show j + 2 + 9 = j + 11 from by omega, show j + 2 + 1 = j + 3 from by omega] at e18
  rw [show j + 3 + 16 = j + 19 from by omega, show j + 3 + 14 = j + 17 from by omega,
    show j + 3 + 9 = j + 12 from by omega, show j + 3 + 1 = j + 4 from by omega] at e19
  rw [X64.nextGroup, show grp (schedule m) (j + 16) =
    ⟨schedule m (j + 16), schedule m (j + 17), schedule m (j + 18), schedule m (j + 19)⟩ from by
      rw [grp, show j + 16 + 1 = j + 17 from by omega, show j + 16 + 2 = j + 18 from by omega,
        show j + 16 + 3 = j + 19 from by omega]]
  apply sha256msg2_eq
  · simp only [addv, X64.sha256msg1, X64.alignr4, grp]
    rw [show j + 12 + 2 = j + 14 from by omega, show j + 8 + 1 = j + 9 from by omega, e16]
    simp only [add32]
    omega
  · simp only [addv, X64.sha256msg1, X64.alignr4, grp]
    rw [show j + 12 + 3 = j + 15 from by omega, show j + 8 + 2 = j + 10 from by omega, e17]
    simp only [add32]
    omega
  · simp only [addv, X64.sha256msg1, X64.alignr4, grp]
    rw [show j + 8 + 3 = j + 11 from by omega, e18]
    simp only [add32]
    omega
  · simp only [addv, X64.sha256msg1, X64.alignr4, grp]
    rw [e19]
    simp only [add32]
    omega

/-- The ARM schedule-extension dataflow computes the next four words of
the standard schedule recurrence. -/
theorem armNext_schedule (m : Nat → Nat) (j : Nat) :
    ARM.nextGroup (grp (schedule m) j) (grp (schedule m) (j + 4)) (grp (schedule m) (j + 8))
      (grp (schedule m) (j + 12)) = grp (schedule m) (j + 16) := by
  have e16 := schedule_add16 m j
  have e17 := schedule_add16 m (j + 1)
  have e18 := schedule_add16 m (j + 2)
  have e19 := schedule_add16 m (j + 3)
  rw [show j + 1 + 16 = j + 17 from by omega, show j + 1 + 14 = j + 15 from by omega,
    show j + 1 + 9 = j + 10 from by omega, show j + 1 + 1 = j + 2 from by omega] at e17
  rw [show j + 2 + 16 = j + 18 from by omega, show j + 2 + 14 = j + 16 from by omega,
    show j + 2 + 9 = j + 11 from by omega, show j + 2 + 1 = j + 3 from by omega] at e18
  rw [show j + 3 + 16 = j + 19 from by omega, show j + 3 + 14 = j + 17 from by omega,
    show j + 3 + 9 = j + 12 from by omega, show j + 3 + 1 = j + 4 from by omega] at e19
  rw [ARM.nextGroup, show grp (schedule m) (j + 16) =
    ⟨schedule m (j + 16), schedule m (j + 17), schedule m (j + 18), schedule m (j + 19)⟩ from by
      rw [grp, show j + 16 + 1 = j + 17 from by omega, show j + 16 + 2 = j + 18 from by omega,
        show j + 16 + 3 = j + 19 from by omega]]
  apply vsha256su1_eq
  · simp only [ARM.vsha256su0, grp]
    rw [show j + 12 + 2 = j + 14 from by omega, show j + 8 + 1 = j + 9 from by omega, e16]
    simp only [add32]
    omega
  · simp only [ARM.vsha256su0, grp]
    rw [show j + 12 + 3 = j + 15 from by omega, show j + 8 + 2 = j + 10 from by omega, e17]
    simp only [add32]
    omega
  · simp only [ARM.vsha256su0, grp]
    rw [show j + 8 + 3 = j + 11 from by omega, e18]
    simp only [add32]
    omega
  · simp only [ARM.vsha256su0, grp]
    rw [e19]
    simp only [add32]
    omega

/-- Any group sequence with correct first four groups that extends by a
dataflow respecting the schedule recurrence follows the schedule. -/
theorem groups_eq (g : Nat → V4) (f : Nat → Nat) (next : V4 → V4 → V4 → V4 → V4)
    (hb0 : g 0 = grp f 0) (hb1 : g 1 = grp f 4) (hb2 : g 2 = grp f 8) (hb3 : g 3 = grp f 12)
    (hs : ∀ i, g (i + 4) = next (g i) (g (i + 1)) (g (i + 2)) (g (i + 3)))
    (hnext : ∀ j, next (grp f j) (grp f (j + 4)) (grp f (j + 8)) (grp f (j + 12)) =
      grp f (j + 16)) :
    ∀ i, g i = grp f (4 * i) := by
  intro i
  induction i using Nat.strong_induction_on with
  | _ i ih =>
    match i with
    | 0 => exact hb0
    | 1 => exact hb1
    | 2 => exact hb2
    | 3 => exact hb3
    | i + 4 =>
      rw [hs i, ih i (by omega), ih (i + 1) (by omega), ih (i + 2) (by omega),
        ih (i + 3) (by omega), show 4 * (i + 1) = 4 * i + 4 from by ring,
        show 4 * (i + 2) = 4 * i + 8 from by ring, show 4 * (i + 3) = 4 * i + 12 from by ring,
        show 4 * (i + 4) = 4 * i + 16 from by ring]
      exact hnext (4 * i)

/-- The message-schedule vectors of the x64 reference kernel follow the
standard schedule of the block words. -/
theorem msgGroupsX64_eq (last : List Nat) :
    ∀ i, X64.msgGroups last i = grp (schedule (blockWord last)) (4 * i) := by
  apply groups_eq (X64.msgGroups last) (schedule (blockWord last)) X64.nextGroup rfl rfl rfl rfl
  · intro i
    match i with
    | 0 => rfl
    | 1 => rfl
    | 2 => rfl
    | i + 3 => rfl
  · exact intelNext_schedule (blockWord last)

/-- The message-schedule vectors of the x64 fast kernel follow the
standard schedule of the kept hash words plus padding constants. -/
theorem fastGroupsX64_eq (h0 h1 : V4) :
    ∀ i, X64.fastGroups h0 h1 i = grp (schedule (wordsMsg h0 h1)) (4 * i) := by
  apply groups_eq (X64.fastGroups h0 h1) (schedule (wordsMsg h0 h1)) X64.nextGroup rfl rfl rfl rfl
  · intro i
    match i with
    | 0 => rfl
    | 1 => rfl
    | 2 => rfl
    | i + 3 => rfl
  · exact intelNext_schedule (wordsMsg h0 h1)

/-- The message-schedule vectors of the ARM reference kernel follow the
standard schedule of the block words. -/
theorem msgGroupsARM_eq (last : List Nat) :
    ∀ i, ARM.msgGroups last i = grp (schedule (blockWord last)) (4 * i) := by
  apply groups_eq (ARM.msgGroups last) (schedule (blockWord last)) ARM.nextGroup rfl rfl rfl rfl
  · intro i
    match i with
    | 0 => rfl
    | 1 => rfl
    | 2 => rfl
    | i + 3 => rfl
  · exact armNext_schedule (blockWord last)

/-- The precomputation the ARM fast kernels rely on for group 6:
`SHA256SU0` of the two constant padding groups is the first one. -/
theorem su0_hpad : ARM.vsha256su0 ARM.HPAD0_CACHE ARM.HPAD1_CACHE = ARM.HPAD0_CACHE := by
  rfl

/-- The message-schedule vectors of the ARM fast kernel (group 6 starting
from the precomputed constant) follow the standard schedule. -/
theorem fastGroupsARM_eq (h0 h1 : V4) :
    ∀ i, ARM.fastGroups h0 h1 i = grp (schedule (wordsMsg h0 h1)) (4 * i) := by
  apply groups_eq (ARM.fastGroups h0 h1) (schedule (wordsMsg h0 h1)) ARM.nextGroup rfl rfl rfl rfl
  · intro i
    match i with
    | 0 => rfl
    | 1 => rfl
    | 2 =>
      show ARM.vsha256su1 ARM.HPAD0_CACHE (ARM.fastGroups h0 h1 4) (ARM.fastGroups h0 h1 5) =
        ARM.vsha256su1 (ARM.vsha256su0 ARM.HPAD0_CACHE ARM.HPAD1_CACHE)
          (ARM.fastGroups h0 h1 4) (ARM.fastGroups h0 h1 5)
      rw [su0_hpad]
    | i + 3 => rfl
  · exact armNext_schedule (wordsMsg h0 h1)

/-- The per-lane message-schedule vectors of the pipelined ARM kernels
follow the standard schedule. -/
theorem laneGroupsPL_eq (h0 h1 : V4) :
    ∀ i, PL.laneGroups h0 h1 i = grp (schedule (wordsMsg h0 h1)) (4 * i) := by
  apply groups_eq (PL.laneGroups h0 h1) (schedule (wordsMsg h0 h1)) ARM.nextGroup rfl rfl rfl rfl
  · intro i
    match i with
    | 0 => rfl
    | 1 => rfl
    | 2 =>
      show ARM.vsha256su1 ARM.HPAD0_CACHE (PL.laneGroups h0 h1 4) (PL.laneGroups h0 h1 5) =
        ARM.vsha256su1 (ARM.vsha256su0 ARM.HPAD0_CACHE ARM.HPAD1_CACHE)
          (PL.laneGroups h0 h1 4) (PL.laneGroups h0 h1 5)
      rw [su0_hpad]
    | i + 3 => rfl
  · exact armNext_schedule (wordsMsg h0 h1)

/-! ## State-loop correspondences -/

/-- Unfolding four rounds of the round loop. -/
theorem roundLoop_add4 (s : St) (w k : Nat → Nat) (n : Nat) :
    roundLoop s w k (n + 4) =
      specRound (specRound (specRound (specRound (roundLoop s w k n) (w n) (k n))
        (w (n + 1)) (k (n + 1))) (w (n + 2)) (k (n + 2))) (w (n + 3)) (k (n + 3)) := rfl

/-- The x64 block loop over a standard schedule computes the standard
round loop, four rounds per block. -/
theorem stateLoopX64_spec (s : St) (w : Nat → Nat) (n : Nat) :
    X64.stateLoop (abef s, cdgh s) (fun i => addv (grp w (4 * i)) (kvec (4 * i))) n =
      (abef (roundLoop s w kword (4 * n)), cdgh (roundLoop s w kword (4 * n))) := by
  induction n with
  | zero => rfl
  | succ n ih =>
    rw [X64.stateLoop, ih]
    rw [show kvec (4 * n) = grp kword (4 * n) from rfl, stateStep_spec,
      show 4 * (n + 1) = 4 * n + 4 from by ring, roundLoop_add4]
    rfl

/-- The ARM block loop over a standard schedule computes the standard
round loop, four rounds per block. -/
theorem stateLoopARM_spec (s : St) (w : Nat → Nat) (n : Nat) :
    ARM.stateLoop (stLo s, stHi s) (fun i => addv (grp w (4 * i)) (kvec (4 * i))) n =
      (stLo (roundLoop s w kword (4 * n)), stHi (roundLoop s w kword (4 * n))) := by
  induction n with
  | zero => rfl
  | succ n ih =>
    rw [ARM.stateLoop, ih]
    rw [show kvec (4 * n) = grp kword (4 * n) from rfl, armStateStep_spec,
      show 4 * (n + 1) = 4 * n + 4 from by ring, roundLoop_add4]
    rfl

/-! ## Kernel-level correspondences -/

/-- The x64 reference kernel `compress_digest` computes the standard
single-block compression of the block words it loads. -/
theorem compressX64_spec (state last : List Nat) :
    X64.compress_digest state last =
      listOfSt (specCompress (stOfList state) (blockWord last)) := by
  have hg : (fun i => addv (X64.msgGroups last i) (kvec (4 * i))) =
      (fun i => addv (grp (schedule (blockWord last)) (4 * i)) (kvec (4 * i))) :=
    funext fun i => by rw [msgGroupsX64_eq]
  simp only [X64.compress_digest]
  rw [hg, show X64.packState state = (abef (stOfList state), cdgh (stOfList state)) from rfl]
  rw [stateLoopX64_spec]
  rfl

/-- The ARM reference kernel `compress_digest` computes the standard
single-block compression of the block words it loads. -/
theorem compressARM_spec (state last : List Nat) :
    ARM.compress_digest state last =
      listOfSt (specCompress (stOfList state) (blockWord last)) := by
  have hg : (fun i => addv (ARM.msgGroups last i) (kvec (4 * i))) =
      (fun i => addv (grp (schedule (blockWord last)) (4 * i)) (kvec (4 * i))) :=
    funext fun i => by rw [msgGroupsARM_eq]
  simp only [ARM.compress_digest]
  rw [hg]
  rw [show (⟨(state.getD 0 0 : Nat), state.getD 1 0, state.getD 2 0, state.getD 3 0⟩ : V4) =
    stLo (stOfList state) from rfl]
  rw [show (⟨(state.getD 4 0 : Nat), state.getD 5 0, state.getD 6 0, state.getD 7 0⟩ : V4) =
    stHi (stOfList state) from rfl]
  rw [stateLoopARM_spec]
  rfl

/-- One iteration of the x64 fast loop computes the standard single-block
compression of the kept hash words under the constant padding. -/
theorem fastStepX64_spec (p : V4 × V4) :
    X64.fastStep p = (stLo (specCompress initSt (wordsMsg p.1 p.2)),
      stHi (specCompress initSt (wordsMsg p.1 p.2))) := by
  have hg : (fun i => addv (X64.fastGroups p.1 p.2 i) (kvec (4 * i))) =
      (fun i => addv (grp (schedule (wordsMsg p.1 p.2)) (4 * i)) (kvec (4 * i))) :=
    funext fun i => by rw [fastGroupsX64_eq]
  simp only [X64.fastStep]
  rw [hg, show (X64.ABEF_INIT, X64.CDGH_INIT) = (abef initSt, cdgh initSt) from rfl]
  rw [stateLoopX64_spec]
  rfl

/-- One iteration of the ARM fast loop computes the standard single-block
compression of the kept hash words under the constant padding. -/
theorem fastStepARM_spec (p : V4 × V4) :
    ARM.fastStep p = (stLo (specCompress initSt (wordsMsg p.1 p.2)),
      stHi (specCompress initSt (wordsMsg p.1 p.2))) := by
  have hg : (fun i => addv (ARM.fastGroups p.1 p.2 i) (kvec (4 * i))) =
      (fun i => addv (grp (schedule (wordsMsg p.1 p.2)) (4 * i)) (kvec (4 * i))) :=
    funext fun i => by rw [fastGroupsARM_eq]
  simp only [ARM.fastStep]
  rw [hg, show (ARM.ABCD_INIT, ARM.EFGH_INIT) = (stLo initSt, stHi initSt) from rfl]
  rw [stateLoopARM_spec]
  rfl

/-- One iteration of one pipelined ARM lane computes the standard
single-block compression of the kept hash words under the padding. -/
theorem laneStepPL_spec (p : V4 × V4) :
    PL.laneStep p = (stLo (specCompress initSt (wordsMsg p.1 p.2)),
      stHi (specCompress initSt (wordsMsg p.1 p.2))) := by
  have hg : (fun i => addv (PL.laneGroups p.1 p.2 i) (kvec (4 * i))) =
      (fun i => addv (grp (schedule (wordsMsg p.1 p.2)) (4 * i)) (kvec (4 * i))) :=
    funext fun i => by rw [laneGroupsPL_eq]
  simp only [PL.laneStep]
  rw [hg, show (ARM.ABCD_INIT, ARM.EFGH_INIT) = (stLo initSt, stHi initSt) from rfl]
  rw [stateLoopARM_spec]
  rfl

/-! ## Byte-level lemmas -/

/-- Reading defaults keeps the byte bound. -/
theorem getD_lt (l : List Nat) (hb : ∀ b ∈ l, b < 256) (i : Nat) : l.getD i 0 < 256 := by
  rcases Nat.lt_or_ge i l.length with h | h
  · rw [List.getD_eq_getElem l 0 h]; exact hb _ (List.getElem_mem h)
  · rw [List.getD_eq_default l 0 h]; omega

/-- A byte swap always yields a 32-bit value. -/
theorem bswap32_lt (x : Nat) : bswap32 x < 4294967296 := by
  simp only [bswap32]; omega

/-- Wrapping addition yields a 32-bit value. -/
theorem add32_lt (a b : Nat) : add32 a b < 4294967296 := by
  simp only [add32]; omega

/-- The parsed lane words are 32-bit values. -/
theorem parsePair_wf (h : List Nat) : wfPair (parsePair h) := by
  refine ⟨⟨?_, ?_, ?_, ?_⟩, ⟨?_, ?_, ?_, ?_⟩⟩ <;> exact bswap32_lt _

/-- The compression output state is made of 32-bit values. -/
theorem specCompress_wf (s : St) (m : Nat → Nat) : wfSt (specCompress s m) := by
  refine ⟨?_, ?_, ?_, ?_, ?_, ?_, ?_, ?_⟩ <;> exact add32_lt _ _

/-- Storing a byte-swapped word writes its big-endian bytes. -/
theorem bytesLE_bswap (w : Nat) (hw : w < 4294967296) :
    bytesOfWordLE (bswap32 w) = bytesOfWordBE w := by
  simp only [bytesOfWordLE, bytesOfWordBE, bswap32, List.cons.injEq, and_true]
  generalize ha : w % 256 = a
  generalize hb : w / 256 % 256 = b
  generalize hc : w / 65536 % 256 = c
  generalize hd : w / 16777216 % 256 = d
  refine ⟨by omega, by omega, by omega, by omega⟩

/-- The kernels' load-and-reverse of block bytes reads big-endian words. -/
theorem blockWord_eq_beWord (l : List Nat) (hb : ∀ b ∈ l, b < 256) :
    blockWord l = beWord l := by
  funext j
  have b0 := getD_lt l hb (4 * j)
  have b1 := getD_lt l hb (4 * j + 1)
  have b2 := getD_lt l hb (4 * j + 2)
  have b3 := getD_lt l hb (4 * j + 3)
  simp only [blockWord, beWord, bswap32, le32]
  omega

/-- Every byte of a big-endian serialized word is a byte. -/
theorem bytesOfWordBE_lt (w : Nat) : ∀ b ∈ bytesOfWordBE w, b < 256 := by
  intro b hb
  simp only [bytesOfWordBE, List.mem_cons, List.not_mem_nil, or_false] at hb
  rcases hb with rfl | rfl | rfl | rfl <;> omega

/-- Every byte of a serialized state is a byte. -/
theorem bytesOfSt_lt (t : St) : ∀ b ∈ bytesOfSt t, b < 256 := by
  intro b hb
  simp only [bytesOfSt, List.mem_append] at hb
  rcases hb with ((((((hb | hb) | hb) | hb) | hb) | hb) | hb) | hb <;>
    exact bytesOfWordBE_lt _ _ hb

/-- A serialized state is 32 bytes long. -/
theorem bytesOfSt_length (t : St) : (bytesOfSt t).length = 32 := by
  simp [bytesOfSt, bytesOfWordBE]

/-- The single-block hash always produces a well-formed 32-byte value. -/
theorem SingleBlockHash_wf (h : List Nat) : wfBuf 1 (SingleBlockHash h) :=
  ⟨bytesOfSt_length _, bytesOfSt_lt _⟩

/-- Serializing the split compression state writes its big-endian bytes. -/
theorem serializePair_bytesOfSt (t : St) (ht : wfSt t) :
    serializePair (stLo t, stHi t) = bytesOfSt t := by
  obtain ⟨ha, hb, hc, hd, he, hf, hg, hh⟩ := ht
  simp only [serializePair, storeV4, rev32, stLo, stHi, bytesOfSt]
  rw [bytesLE_bswap _ ha, bytesLE_bswap _ hb, bytesLE_bswap _ hc, bytesLE_bswap _ hd,
    bytesLE_bswap _ he, bytesLE_bswap _ hf, bytesLE_bswap _ hg, bytesLE_bswap _ hh]
  simp

/-- The reference drivers' byte-swap-and-store epilogue writes the state
big-endian. -/
theorem listOfSt_mapflat (t : St) (ht : wfSt t) :
    ((listOfSt t).map bswap32).flatMap bytesOfWordLE = bytesOfSt t := by
  obtain ⟨ha, hb, hc, hd, he, hf, hg, hh⟩ := ht
  simp only [listOfSt, List.map_cons, List.map_nil, List.flatMap_cons, List.flatMap_nil,
    List.append_nil, bytesOfSt]
  rw [bytesLE_bswap _ ha, bytesLE_bswap _ hb, bytesLE_bswap _ hc, bytesLE_bswap _ hd,
    bytesLE_bswap _ he, bytesLE_bswap _ hf, bytesLE_bswap _ hg, bytesLE_bswap _ hh]
  simp

/-- Every byte of the reference padded block is a byte. -/
theorem refPaddedBlock_bytes (h : List Nat) (hb : ∀ b ∈ h, b < 256) :
    ∀ b ∈ refPaddedBlock h, b < 256 := by
  intro b hbm
  simp only [refPaddedBlock, List.mem_append] at hbm
  rcases hbm with hm | hm
  · exact hb _ (List.mem_of_mem_take hm)
  · have hp : ∀ b ∈ padBytes, b < 256 := by decide
    exact hp _ hm

/-- One iteration of the x64 reference driver computes the spec's
single-block hash of the current value. -/
theorem refStepX64_eq (h : List Nat) (hwf : wfBuf 1 h) : refStepX64 h = SingleBlockHash h := by
  obtain ⟨hlen, hb⟩ := hwf
  simp only [refStepX64]
  rw [compressX64_spec, listOfSt_mapflat _ (specCompress_wf _ _),
    blockWord_eq_beWord _ (refPaddedBlock_bytes h hb)]
  rfl

/-- One iteration of the ARM reference driver computes the spec's
single-block hash of the current value. -/
theorem refStepARM_eq (h : List Nat) (hwf : wfBuf 1 h) : refStepARM h = SingleBlockHash h := by
  obtain ⟨hlen, hb⟩ := hwf
  simp only [refStepARM]
  rw [compressARM_spec, listOfSt_mapflat _ (specCompress_wf _ _),
    blockWord_eq_beWord _ (refPaddedBlock_bytes h hb)]
  rfl

/-- A serialized lane is 32 bytes long. -/
theorem serializePair_length (p : V4 × V4) : (serializePair p).length = 32 := by
  simp [serializePair, storeV4, bytesOfWordLE]

/-- Reassembling the big-endian bytes of a byte-swapped 32-bit word
recovers the word. -/
theorem be_of_le_bswap (w : Nat) (hw : w < 4294967296) :
    bswap32 w % 256 * 16777216 + bswap32 w / 256 % 256 * 65536 +
      bswap32 w / 65536 % 256 * 256 + bswap32 w / 16777216 % 256 = w := by
  simp only [bswap32]
  generalize ha : w % 256 = a
  generalize hb : w / 256 % 256 = b
  generalize hc : w / 65536 % 256 = c
  generalize hd : w / 16777216 % 256 = d
  have e1 : (a * 16777216 + b * 65536 + c * 256 + d) % 256 = d := by omega
  have e2 : (a * 16777216 + b * 65536 + c * 256 + d) / 256 % 256 = c := by omega
  have e3 : (a * 16777216 + b * 65536 + c * 256 + d) / 65536 % 256 = b := by omega
  have e4 : (a * 16777216 + b * 65536 + c * 256 + d) / 16777216 % 256 = a := by omega
  rw [e1, e2, e3, e4]
  clear e1 e2 e3 e4
  omega

/-- The block words the fast kernels keep in registers are exactly the
big-endian words of the 64-byte padded block built from the lane's
serialized bytes. -/
theorem wordsMsg_eq_beWord (p : V4 × V4) (hwf : wfPair p) :
    wordsMsg p.1 p.2 = beWord (serializePair p ++ padBytes) := by
  obtain ⟨⟨h00, h01, h02, h03⟩, ⟨h10, h11, h12, h13⟩⟩ := hwf
  funext j
  have hnorm : serializePair p ++ padBytes =
      bytesOfWordLE (bswap32 p.1.w0) ++ bytesOfWordLE (bswap32 p.1.w1) ++
      bytesOfWordLE (bswap32 p.1.w2) ++ bytesOfWordLE (bswap32 p.1.w3) ++
      (bytesOfWordLE (bswap32 p.2.w0) ++ bytesOfWordLE (bswap32 p.2.w1) ++
       bytesOfWordLE (bswap32 p.2.w2) ++ bytesOfWordLE (bswap32 p.2.w3)) ++ padBytes := rfl
  match j with
  | 0 =>
    show p.1.w0 = _
    rw [hnorm]
    simp only [beWord, bytesOfWordLE, padBytes, List.cons_append, List.nil_append,
      List.getD_cons_zero, List.getD_cons_succ, Nat.reduceMul, Nat.reduceAdd]
    rw [be_of_le_bswap _ h00]
  | 1 =>
    show p.1.w1 = _
    rw [hnorm]
    simp only [beWord, bytesOfWordLE, padBytes, List.cons_append, List.nil_append,
      List.getD_cons_zero, List.getD_cons_succ, Nat.reduceMul, Nat.reduceAdd]
    rw [be_of_le_bswap _ h01]
  | 2 =>
    show p.1.w2 = _
    rw [hnorm]
    simp only [beWord, bytesOfWordLE, padBytes, List.cons_append, List.nil_append,
      List.getD_cons_zero, List.getD_cons_succ, Nat.reduceMul, Nat.reduceAdd]
    rw [be_of_le_bswap _ h02]
  | 3 =>
    show p.1.w3 = _
    rw [hnorm]
    simp only [beWord, bytesOfWordLE, padBytes, List.cons_append, List.nil_append,
      List.getD_cons_zero, List.getD_cons_succ, Nat.reduceMul, Nat.reduceAdd]
    rw [be_of_le_bswap _ h03]
  | 4 =>
    show p.2.w0 = _
    rw [hnorm]
    simp only [beWord, bytesOfWordLE, padBytes, List.cons_append, List.nil_append,
      List.getD_cons_zero, List.getD_cons_succ, Nat.reduceMul, Nat.reduceAdd]
    rw [be_of_le_bswap _ h10]
  | 5 =>
    show p.2.w1 = _
    rw [hnorm]
    simp only [beWord, bytesOfWordLE, padBytes, List.cons_append, List.nil_append,
      List.getD_cons_zero, List.getD_cons_succ, Nat.reduceMul, Nat.reduceAdd]
    rw [be_of_le_bswap _ h11]
  | 6 =>
    show p.2.w2 = _
    rw [hnorm]
    simp only [beWord, bytesOfWordLE, padBytes, List.cons_append, List.nil_append,
      List.getD_cons_zero, List.getD_cons_succ, Nat.reduceMul, Nat.reduceAdd]
    rw [be_of_le_bswap _ h12]
  | 7 =>
    show p.2.w3 = _
    rw [hnorm]
    simp only [beWord, bytesOfWordLE, padBytes, List.cons_append, List.nil_append,
      List.getD_cons_zero, List.getD_cons_succ, Nat.reduceMul, Nat.reduceAdd]
    rw [be_of_le_bswap _ h13]
  | 8 =>
    show (0x80000000 : Nat) = _
    have hl := serializePair_length p
    simp only [beWord, Nat.reduceMul, Nat.reduceAdd]
    rw [List.getD_append_right _ _ _ _ (by omega), List.getD_append_right _ _ _ _ (by omega),
      List.getD_append_right _ _ _ _ (by omega), List.getD_append_right _ _ _ _ (by omega), hl]
    decide
  | 9 =>
    show (0 : Nat) = _
    have hl := serializePair_length p
    simp only [beWord, Nat.reduceMul, Nat.reduceAdd]
    rw [List.getD_append_right _ _ _ _ (by omega), List.getD_append_right _ _ _ _ (by omega),
      List.getD_append_right _ _ _ _ (by omega), List.getD_append_right _ _ _ _ (by omega), hl]
    decide
  | 10 =>
    show (0 : Nat) = _
    have hl := serializePair_length p
    simp only [beWord, Nat.reduceMul, Nat.reduceAdd]
    rw [List.getD_append_right _ _ _ _ (by omega), List.getD_append_right _ _ _ _ (by omega),
      List.getD_append_right _ _ _ _ (by omega), List.getD_append_right _ _ _ _ (by omega), hl]
    decide
  | 11 =>
    show (0 : Nat) = _
    have hl := serializePair_length p
    simp only [beWord, Nat.reduceMul, Nat.reduceAdd]
    rw [List.getD_append_right _ _ _ _ (by omega), List.getD_append_right _ _ _ _ (by omega),
      List.getD_append_right _ _ _ _ (by omega), List.getD_append_right _ _ _ _ (by omega), hl]
    decide
  | 12 =>
    show (0 : Nat) = _
    have hl := serializePair_length p
    simp only [beWord, Nat.reduceMul, Nat.reduceAdd]
    rw [List.getD_append_right _ _ _ _ (by omega), List.getD_append_right _ _ _ _ (by omega),
      List.getD_append_right _ _ _ _ (by omega), List.getD_append_right _ _ _ _ (by omega), hl]
    decide
  | 13 =>
    show (0 : Nat) = _
    have hl := serializePair_length p
    simp only [beWord, Nat.reduceMul, Nat.reduceAdd]
    rw [List.getD_append_right _ _ _ _ (by omega), List.getD_append_right _ _ _ _ (by omega),
      List.getD_append_right _ _ _ _ (by omega), List.getD_append_right _ _ _ _ (by omega), hl]
    decide
  | 14 =>
    show (0 : Nat) = _
    have hl := serializePair_length p
    simp only [beWord, Nat.reduceMul, Nat.reduceAdd]
    rw [List.getD_append_right _ _ _ _ (by omega), List.getD_append_right _ _ _ _ (by omega),
      List.getD_append_right _ _ _ _ (by omega), List.getD_append_right _ _ _ _ (by omega), hl]
    decide
  | 15 =>
    show (0x00000100 : Nat) = _
    have hl := serializePair_length p
    simp only [beWord, Nat.reduceMul, Nat.reduceAdd]
    rw [List.getD_append_right _ _ _ _ (by omega), List.getD_append_right _ _ _ _ (by omega),
      List.getD_append_right _ _ _ _ (by omega), List.getD_append_right _ _ _ _ (by omega), hl]
    decide
  | j + 16 =>
    show (0 : Nat) = _
    have hlen : (serializePair p ++ padBytes).length = 64 := by
      simp [serializePair_length, padBytes]
    simp only [beWord]
    rw [List.getD_eq_default _ _ (by omega), List.getD_eq_default _ _ (by omega),
      List.getD_eq_default _ _ (by omega), List.getD_eq_default _ _ (by omega)]

/-- One x64 fast iteration, serialized, is the spec's single-block hash
of the serialized input pair. -/
theorem fastStepX64_bytes (p : V4 × V4) (hwf : wfPair p) :
    serializePair (X64.fastStep p) = SingleBlockHash (serializePair p) := by
  rw [fastStepX64_spec, serializePair_bytesOfSt _ (specCompress_wf _ _)]
  simp only [SingleBlockHash]
  rw [List.take_of_length_le (by rw [serializePair_length]), wordsMsg_eq_beWord p hwf]

/-- One ARM fast iteration, serialized, is the spec's single-block hash
of the serialized input pair. -/
theorem fastStepARM_bytes (p : V4 × V4) (hwf : wfPair p) :
    serializePair (ARM.fastStep p) = SingleBlockHash (serializePair p) := by
  rw [fastStepARM_spec, serializePair_bytesOfSt _ (specCompress_wf _ _)]
  simp only [SingleBlockHash]
  rw [List.take_of_length_le (by rw [serializePair_length]), wordsMsg_eq_beWord p hwf]

/-- One pipelined ARM lane iteration, serialized, is the spec's
single-block hash of the serialized input pair. -/
theorem laneStepPL_bytes (p : V4 × V4) (hwf : wfPair p) :
    serializePair (PL.laneStep p) = SingleBlockHash (serializePair p) := by
  rw [laneStepPL_spec, serializePair_bytesOfSt _ (specCompress_wf _ _)]
  simp only [SingleBlockHash]
  rw [List.take_of_length_le (by rw [serializePair_length]), wordsMsg_eq_beWord p hwf]

/-- The x64 fast iteration keeps all words 32-bit. -/
theorem fastStepX64_wf (p : V4 × V4) : wfPair (X64.fastStep p) := by
  rw [fastStepX64_spec]
  exact ⟨⟨add32_lt _ _, add32_lt _ _, add32_lt _ _, add32_lt _ _⟩,
    ⟨add32_lt _ _, add32_lt _ _, add32_lt _ _, add32_lt _ _⟩⟩

/-- The ARM fast iteration keeps all words 32-bit. -/
theorem fastStepARM_wf (p : V4 × V4) : wfPair (ARM.fastStep p) := by
  rw [fastStepARM_spec]
  exact ⟨⟨add32_lt _ _, add32_lt _ _, add32_lt _ _, add32_lt _ _⟩,
    ⟨add32_lt _ _, add32_lt _ _, add32_lt _ _, add32_lt _ _⟩⟩

/-- The pipelined lane iteration keeps all words 32-bit. -/
theorem laneStepPL_wf (p : V4 × V4) : wfPair (PL.laneStep p) := by
  rw [laneStepPL_spec]
  exact ⟨⟨add32_lt _ _, add32_lt _ _, add32_lt _ _, add32_lt _ _⟩,
    ⟨add32_lt _ _, add32_lt _ _, add32_lt _ _, add32_lt _ _⟩⟩

/-- The hash chain preserves well-formedness. -/
theorem hashIter_wf (n : Nat) (h : List Nat) (hwf : wfBuf 1 h) : wfBuf 1 (hashIter h n) := by
  cases n with
  | zero => exact hwf
  | succ n => exact SingleBlockHash_wf _

/-- The hash chain splits over a sum of iteration counts. -/
theorem hashIter_add (h : List Nat) (m n : Nat) :
    hashIter h (m + n) = hashIter (hashIter h m) n := by
  induction n with
  | zero => rfl
  | succ n ih =>
    show SingleBlockHash (hashIter h (m + n)) = SingleBlockHash (hashIter (hashIter h m) n)
    rw [ih]

/-- The x64 fast loop preserves well-formedness. -/
theorem fastLoopX64_wf (p : V4 × V4) (hwf : wfPair p) (n : Nat) :
    wfPair (X64.fastLoop p n) := by
  induction n with
  | zero => exact hwf
  | succ n _ => exact fastStepX64_wf _

/-- The ARM fast loop preserves well-formedness. -/
theorem fastLoopARM_wf (p : V4 × V4) (hwf : wfPair p) (n : Nat) :
    wfPair (ARM.fastLoop p n) := by
  induction n with
  | zero => exact hwf
  | succ n _ => exact fastStepARM_wf _

/-- The pipelined single-lane loop preserves well-formedness. -/
theorem loop1PL_wf (p : V4 × V4) (hwf : wfPair p) (n : Nat) : wfPair (PL.loop1 p n) := by
  induction n with
  | zero => exact hwf
  | succ n _ => exact laneStepPL_wf _

/-- The x64 fast loop, serialized, matches the specified hash chain of
the serialized input pair. -/
theorem fastLoopX64_bytes (p : V4 × V4) (hwf : wfPair p) (n : Nat) :
    serializePair (X64.fastLoop p n) = hashIter (serializePair p) n := by
  induction n with
  | zero => rfl
  | succ n ih =>
    show serializePair (X64.fastStep (X64.fastLoop p n)) = _
    rw [fastStepX64_bytes _ (fastLoopX64_wf p hwf n), ih]
    rfl

/-- The ARM fast loop, serialized, matches the specified hash chain of
the serialized input pair. -/
theorem fastLoopARM_bytes (p : V4 × V4) (hwf : wfPair p) (n : Nat) :
    serializePair (ARM.fastLoop p n) = hashIter (serializePair p) n := by
  induction n with
  | zero => rfl
  | succ n ih =>
    show serializePair (ARM.fastStep (ARM.fastLoop p n)) = _
    rw [fastStepARM_bytes _ (fastLoopARM_wf p hwf n), ih]
    rfl

/-- The pipelined single-lane loop, serialized, matches the specified
hash chain of the serialized input pair. -/
theorem loop1PL_bytes (p : V4 × V4) (hwf : wfPair p) (n : Nat) :
    serializePair (PL.loop1 p n) = hashIter (serializePair p) n := by
  induction n with
  | zero => rfl
  | succ n ih =>
    show serializePair (PL.laneStep (PL.loop1 p n)) = _
    rw [laneStepPL_bytes _ (loop1PL_wf p hwf n), ih]
    rfl

/-- A little-endian combination of four bytes is a 32-bit value. -/
theorem le32_lt (b0 b1 b2 b3 : Nat) (h0 : b0 < 256) (h1 : b1 < 256) (h2 : b2 < 256)
    (h3 : b3 < 256) : le32 b0 b1 b2 b3 < 4294967296 := by
  simp only [le32]; omega

/-- The byte swap is an involution on 32-bit values. -/
theorem bswap32_bswap32 (x : Nat) (hx : x < 4294967296) : bswap32 (bswap32 x) = x := by
  generalize ha : x % 256 = a
  generalize hb : x / 256 % 256 = b
  generalize hc : x / 65536 % 256 = c
  generalize hd : x / 16777216 % 256 = d
  have hX : bswap32 x = a * 16777216 + b * 65536 + c * 256 + d := by
    simp only [bswap32, ha, hb, hc, hd]
  rw [hX]
  simp only [bswap32]
  have e1 : (a * 16777216 + b * 65536 + c * 256 + d) % 256 = d := by omega
  have e2 : (a * 16777216 + b * 65536 + c * 256 + d) / 256 % 256 = c := by omega
  have e3 : (a * 16777216 + b * 65536 + c * 256 + d) / 65536 % 256 = b := by omega
  have e4 : (a * 16777216 + b * 65536 + c * 256 + d) / 16777216 % 256 = a := by omega
  rw [e1, e2, e3, e4]
  clear e1 e2 e3 e4 hX
  omega

/-- Parsing then serializing a well-formed 32-byte buffer is the
identity. -/
theorem serialize_parse (h : List Nat) (hwf : wfBuf 1 h) : serializePair (parsePair h) = h := by
  obtain ⟨hlen, hb⟩ := hwf
  have hg : ∀ k, h.getD k 0 < 256 := getD_lt h hb
  apply List.ext_getElem
  · rw [serializePair_length]; omega
  · intro i h1 h2
    have h32 : i < 32 := by rw [serializePair_length] at h1; omega
    have q0 := hg 0
    have q1 := hg 1
    have q2 := hg 2
    have q3 := hg 3
    have q4 := hg 4
    have q5 := hg 5
    have q6 := hg 6
    have q7 := hg 7
    have q8 := hg 8
    have q9 := hg 9
    have q10 := hg 10
    have q11 := hg 11
    have q12 := hg 12
    have q13 := hg 13
    have q14 := hg 14
    have q15 := hg 15
    have q16 := hg 16
    have q17 := hg 17
    have q18 := hg 18
    have q19 := hg 19
    have q20 := hg 20
    have q21 := hg 21
    have q22 := hg 22
    have q23 := hg 23
    have q24 := hg 24
    have q25 := hg 25
    have q26 := hg 26
    have q27 := hg 27
    have q28 := hg 28
    have q29 := hg 29
    have q30 := hg 30
    have q31 := hg 31
    interval_cases i <;>
      (rw [← List.getD_eq_getElem h 0 h2]
       show _ = h.getD _ 0
       simp only [serializePair, parsePair, storeV4, rev32, loadu, bytesOfWordLE,
         List.cons_append, List.nil_append, List.getElem_cons_zero, List.getElem_cons_succ,
         Nat.reduceAdd]
       rw [bswap32_bswap32 _ (le32_lt _ _ _ _ (hg _) (hg _) (hg _) (hg _))]
       simp only [le32]
       omega)

/-! ## Driver-level master theorems -/

/-- The x64 fast driver computes the spec's hash chain. -/
theorem rec_sha256_fast_spec (h : List Nat) (hwf : wfBuf 1 h) (n : Nat) :
    rec_sha256_fast h n = hashIter h n := by
  cases n with
  | zero => rfl
  | succ n =>
    rw [show rec_sha256_fast h (n + 1) =
      serializePair (X64.fastLoop (parsePair h) (n + 1)) from rfl]
    rw [fastLoopX64_bytes _ (parsePair_wf h), serialize_parse h hwf]

/-- The ARM fast driver computes the spec's hash chain. -/
theorem rsha256_fast_spec (h : List Nat) (hwf : wfBuf 1 h) (n : Nat) :
    rsha256_fast h n = hashIter h n := by
  cases n with
  | zero => rfl
  | succ n =>
    rw [show rsha256_fast h (n + 1) =
      serializePair (ARM.fastLoop (parsePair h) (n + 1)) from rfl]
    rw [fastLoopARM_bytes _ (parsePair_wf h), serialize_parse h hwf]

/-- The pipelined single-lane ARM driver computes the spec's hash chain. -/
theorem rsha256_fast_x1_spec (h : List Nat) (hwf : wfBuf 1 h) (n : Nat) :
    rsha256_fast_x1 h n = hashIter h n := by
  cases n with
  | zero => rfl
  | succ n =>
    rw [show rsha256_fast_x1 h (n + 1) =
      serializePair (PL.loop1 (PL.laneIn h 0) (n + 1)) from rfl]
    rw [show PL.laneIn h 0 = parsePair h from rfl]
    rw [loop1PL_bytes _ (parsePair_wf h), serialize_parse h hwf]

/-- The x64 reference driver computes the spec's hash chain. -/
theorem rec_sha256_reference_spec (h : List Nat) (hwf : wfBuf 1 h) (n : Nat) :
    rec_sha256_reference h n = hashIter h n := by
  induction n with
  | zero => rfl
  | succ n ih =>
    show refStepX64 (rec_sha256_reference h n) = _
    rw [ih, refStepX64_eq _ (hashIter_wf n h hwf)]
    rfl

/-- The ARM reference driver computes the spec's hash chain. -/
theorem rsha256_ref_spec (h : List Nat) (hwf : wfBuf 1 h) (n : Nat) :
    rsha256_ref h n = hashIter h n := by
  induction n with
  | zero => rfl
  | succ n ih =>
    show refStepARM (rsha256_ref h n) = _
    rw [ih, refStepARM_eq _ (hashIter_wf n h hwf)]
    rfl

/-- The modelled x64 single-lane pipelined loop preserves
well-formedness. -/
theorem loop1PLX64_wf (p : V4 × V4) (hwf : wfPair p) (n : Nat) :
    wfPair (PLX64.loop1 p n) := by
  induction n with
  | zero => exact hwf
  | succ n _ => exact fastStepX64_wf _

/-- The modelled x64 single-lane pipelined loop, serialized, matches the
spec's hash chain. -/
theorem loop1PLX64_bytes (p : V4 × V4) (hwf : wfPair p) (n : Nat) :
    serializePair (PLX64.loop1 p n) = hashIter (serializePair p) n := by
  induction n with
  | zero => rfl
  | succ n ih =>
    show serializePair (X64.fastStep (PLX64.loop1 p n)) = _
    rw [fastStepX64_bytes _ (loop1PLX64_wf p hwf n), ih]
    rfl

/-- The modelled x64 single-lane pipelined driver computes the spec's
hash chain. -/
theorem rsha256plx64_fast_x1_spec (h : List Nat) (hwf : wfBuf 1 h) (n : Nat) :
    rsha256plx64_fast_x1 h n = hashIter h n := by
  cases n with
  | zero => rfl
  | succ n =>
    rw [show rsha256plx64_fast_x1 h (n + 1) =
      serializePair (PLX64.loop1 (PLX64.laneIn h 0) (n + 1)) from rfl]
    rw [show PLX64.laneIn h 0 = parsePair h from rfl]
    rw [loop1PLX64_bytes _ (parsePair_wf h), serialize_parse h hwf]

/-! ## Lane independence -/

/-- A lock-step two-lane loop is two independent single-lane loops. -/
theorem loop2_eq (p q : V4 × V4) (n : Nat) :
    PL.loop2 (p, q) n = (PL.loop1 p n, PL.loop1 q n) := by
  induction n with
  | zero => rfl
  | succ n ih =>
    show (PL.laneStep (PL.loop2 (p, q) n).1, PL.laneStep (PL.loop2 (p, q) n).2) = _
    rw [ih]
    rfl

/-- A lock-step three-lane loop is three independent single-lane loops. -/
theorem loop3_eq (p q r : V4 × V4) (n : Nat) :
    PL.loop3 (p, q, r) n = (PL.loop1 p n, PL.loop1 q n, PL.loop1 r n) := by
  induction n with
  | zero => rfl
  | succ n ih =>
    show (PL.laneStep (PL.loop3 (p, q, r) n).1, PL.laneStep (PL.loop3 (p, q, r) n).2.1,
      PL.laneStep (PL.loop3 (p, q, r) n).2.2) = _
    rw [ih]
    rfl

/-- A lock-step four-lane loop is four independent single-lane loops. -/
theorem loop4_eq (p q r t : V4 × V4) (n : Nat) :
    PL.loop4 (p, q, r, t) n = (PL.loop1 p n, PL.loop1 q n, PL.loop1 r n, PL.loop1 t n) := by
  induction n with
  | zero => rfl
  | succ n ih =>
    show (PL.laneStep (PL.loop4 (p, q, r, t) n).1, PL.laneStep (PL.loop4 (p, q, r, t) n).2.1,
      PL.laneStep (PL.loop4 (p, q, r, t) n).2.2.1,
      PL.laneStep (PL.loop4 (p, q, r, t) n).2.2.2) = _
    rw [ih]
    rfl

/-- Loading sixteen bytes entirely inside the first part of an appended
buffer ignores the second part. -/
theorem loadu_append_left (l1 l2 : List Nat) (off : Nat) (hb : off + 15 < l1.length) :
    loadu (l1 ++ l2) off = loadu l1 off := by
  simp only [loadu]
  rw [List.getD_append _ _ _ _ (by omega), List.getD_append _ _ _ _ (by omega),
    List.getD_append _ _ _ _ (by omega), List.getD_append _ _ _ _ (by omega),
    List.getD_append _ _ _ _ (by omega), List.getD_append _ _ _ _ (by omega),
    List.getD_append _ _ _ _ (by omega), List.getD_append _ _ _ _ (by omega),
    List.getD_append _ _ _ _ (by omega), List.getD_append _ _ _ _ (by omega),
    List.getD_append _ _ _ _ (by omega), List.getD_append _ _ _ _ (by omega),
    List.getD_append _ _ _ _ (by omega), List.getD_append _ _ _ _ (by omega),
    List.getD_append _ _ _ _ (by omega), List.getD_append _ _ _ _ (by omega)]

/-- Loading sixteen bytes entirely past the first part of an appended
buffer reads the second part. -/
theorem loadu_append_right (l1 l2 : List Nat) (d : Nat) :
    loadu (l1 ++ l2) (l1.length + d) = loadu l2 d := by
  simp only [loadu]
  rw [List.getD_append_right _ _ _ _ (by omega), List.getD_append_right _ _ _ _ (by omega),
    List.getD_append_right _ _ _ _ (by omega), List.getD_append_right _ _ _ _ (by omega),
    List.getD_append_right _ _ _ _ (by omega), List.getD_append_right _ _ _ _ (by omega),
    List.getD_append_right _ _ _ _ (by omega), List.getD_append_right _ _ _ _ (by omega),
    List.getD_append_right _ _ _ _ (by omega), List.getD_append_right _ _ _ _ (by omega),
    List.getD_append_right _ _ _ _ (by omega), List.getD_append_right _ _ _ _ (by omega),
    List.getD_append_right _ _ _ _ (by omega), List.getD_append_right _ _ _ _ (by omega),
    List.getD_append_right _ _ _ _ (by omega), List.getD_append_right _ _ _ _ (by omega)]
  rw [show l1.length + d - l1.length = d from by omega,
    show l1.length + d + 1 - l1.length = d + 1 from by omega,
    show l1.length + d + 2 - l1.length = d + 2 from by omega,
    show l1.length + d + 3 - l1.length = d + 3 from by omega,
    show l1.length + d + 4 - l1.length = d + 4 from by omega,
    show l1.length + d + 5 - l1.length = d + 5 from by omega,
    show l1.length + d + 6 - l1.length = d + 6 from by omega,
    show l1.length + d + 7 - l1.length = d + 7 from by omega,
    show l1.length + d + 8 - l1.length = d + 8 from by omega,
    show l1.length + d + 9 - l1.length = d + 9 from by omega,
    show l1.length + d + 10 - l1.length = d + 10 from by omega,
    show l1.length + d + 11 - l1.length = d + 11 from by omega,
    show l1.length + d + 12 - l1.length = d + 12 from by omega,
    show l1.length + d + 13 - l1.length = d + 13 from by omega,
    show l1.length + d + 14 - l1.length = d + 14 from by omega,
    show l1.length + d + 15 - l1.length = d + 15 from by omega]

/-- The first lane of an appended buffer parses from the first 32 bytes. -/
theorem laneIn_append_zero (h1 h2 : List Nat) (hl : h1.length = 32) :
    PL.laneIn (h1 ++ h2) 0 = PL.laneIn h1 0 := by
  simp only [PL.laneIn, Nat.reduceMul, Nat.zero_add, Nat.reduceAdd]
  rw [loadu_append_left _ _ _ (by omega), loadu_append_left _ _ _ (by omega)]

/-- Later lanes of an appended buffer parse from past the first 32
bytes. -/
theorem laneIn_append_succ (h1 h2 : List Nat) (hl : h1.length = 32) (j : Nat) :
    PL.laneIn (h1 ++ h2) (j + 1) = PL.laneIn h2 j := by
  simp only [PL.laneIn]
  rw [show 32 * (j + 1) = h1.length + 32 * j from by omega]
  rw [show h1.length + 32 * j + 16 = h1.length + (32 * j + 16) from by omega]
  rw [loadu_append_right, loadu_append_right]

/-- The two-lane pipelined ARM driver is two independent single-lane
calls on the two buffer halves. -/
theorem rsha256_fast_x2_lanes (h1 h2 : List Nat) (hl1 : h1.length = 32) (n : Nat) :
    rsha256_fast_x2 (h1 ++ h2) n = rsha256_fast_x1 h1 n ++ rsha256_fast_x1 h2 n := by
  cases n with
  | zero => rfl
  | succ n =>
    rw [show rsha256_fast_x2 (h1 ++ h2) (n + 1) =
      PL.laneOut (PL.loop2 (PL.laneIn (h1 ++ h2) 0, PL.laneIn (h1 ++ h2) 1) (n + 1)).1 ++
      PL.laneOut (PL.loop2 (PL.laneIn (h1 ++ h2) 0, PL.laneIn (h1 ++ h2) 1) (n + 1)).2
      from rfl]
    rw [laneIn_append_zero h1 h2 hl1,
      show PL.laneIn (h1 ++ h2) 1 = PL.laneIn h2 0 from laneIn_append_succ h1 h2 hl1 0,
      loop2_eq]
    rfl

/-- The three-lane pipelined ARM driver is three independent single-lane
calls on the three buffer thirds. -/
theorem rsha256_fast_x3_lanes (h1 h2 h3 : List Nat) (hl1 : h1.length = 32)
    (hl2 : h2.length = 32) (n : Nat) :
    rsha256_fast_x3 (h1 ++ (h2 ++ h3)) n =
      rsha256_fast_x1 h1 n ++ (rsha256_fast_x1 h2 n ++ rsha256_fast_x1 h3 n) := by
  cases n with
  | zero => rfl
  | succ n =>
    have hi0 : PL.laneIn (h1 ++ (h2 ++ h3)) 0 = PL.laneIn h1 0 :=
      laneIn_append_zero _ _ hl1
    have hi1 : PL.laneIn (h1 ++ (h2 ++ h3)) 1 = PL.laneIn h2 0 := by
      rw [show PL.laneIn (h1 ++ (h2 ++ h3)) 1 = PL.laneIn (h2 ++ h3) 0 from
        laneIn_append_succ _ _ hl1 0]
      exact laneIn_append_zero _ _ hl2
    have hi2 : PL.laneIn (h1 ++ (h2 ++ h3)) 2 = PL.laneIn h3 0 := by
      rw [show PL.laneIn (h1 ++ (h2 ++ h3)) 2 = PL.laneIn (h2 ++ h3) 1 from
        laneIn_append_succ _ _ hl1 1]
      exact laneIn_append_succ _ _ hl2 0
    rw [show rsha256_fast_x3 (h1 ++ (h2 ++ h3)) (n + 1) =
      PL.laneOut (PL.loop3 (PL.laneIn (h1 ++ (h2 ++ h3)) 0, PL.laneIn (h1 ++ (h2 ++ h3)) 1,
        PL.laneIn (h1 ++ (h2 ++ h3)) 2) (n + 1)).1 ++
      (PL.laneOut (PL.loop3 (PL.laneIn (h1 ++ (h2 ++ h3)) 0, PL.laneIn (h1 ++ (h2 ++ h3)) 1,
        PL.laneIn (h1 ++ (h2 ++ h3)) 2) (n + 1)).2.1 ++
       PL.laneOut (PL.loop3 (PL.laneIn (h1 ++ (h2 ++ h3)) 0, PL.laneIn (h1 ++ (h2 ++ h3)) 1,
        PL.laneIn (h1 ++ (h2 ++ h3)) 2) (n + 1)).2.2) from by
        simp [rsha256_fast_x3, List.append_assoc]]
    rw [hi0, hi1, hi2, loop3_eq]
    rfl

/-- The four-lane pipelined ARM driver is four independent single-lane
calls on the four buffer quarters. -/
theorem rsha256_fast_x4_lanes (h1 h2 h3 h4 : List Nat) (hl1 : h1.length = 32)
    (hl2 : h2.length = 32) (hl3 : h3.length = 32) (n : Nat) :
    rsha256_fast_x4 (h1 ++ (h2 ++ (h3 ++ h4))) n =
      rsha256_fast_x1 h1 n ++
        (rsha256_fast_x1 h2 n ++ (rsha256_fast_x1 h3 n ++ rsha256_fast_x1 h4 n)) := by
  cases n with
  | zero => rfl
  | succ n =>
    have hi0 : PL.laneIn (h1 ++ (h2 ++ (h3 ++ h4))) 0 = PL.laneIn h1 0 :=
      laneIn_append_zero _ _ hl1
    have hi1 : PL.laneIn (h1 ++ (h2 ++ (h3 ++ h4))) 1 = PL.laneIn h2 0 := by
      rw [show PL.laneIn (h1 ++ (h2 ++ (h3 ++ h4))) 1 = PL.laneIn (h2 ++ (h3 ++ h4)) 0 from
        laneIn_append_succ _ _ hl1 0]
      exact laneIn_append_zero _ _ hl2
    have hi2 : PL.laneIn (h1 ++ (h2 ++ (h3 ++ h4))) 2 = PL.laneIn h3 0 := by
      rw [show PL.laneIn (h1 ++ (h2 ++ (h3 ++ h4))) 2 = PL.laneIn (h2 ++ (h3 ++ h4)) 1 from
        laneIn_append_succ _ _ hl1 1]
      rw [show PL.laneIn (h2 ++ (h3 ++ h4)) 1 = PL.laneIn (h3 ++ h4) 0 from
        laneIn_append_succ _ _ hl2 0]
      exact laneIn_append_zero _ _ hl3
    have hi3 : PL.laneIn (h1 ++ (h2 ++ (h3 ++ h4))) 3 = PL.laneIn h4 0 := by
      rw [show PL.laneIn (h1 ++ (h2 ++ (h3 ++ h4))) 3 = PL.laneIn (h2 ++ (h3 ++ h4)) 2 from
        laneIn_append_succ _ _ hl1 2]
      rw [show PL.laneIn (h2 ++ (h3 ++ h4)) 2 = PL.laneIn (h3 ++ h4) 1 from
        laneIn_append_succ _ _ hl2 1]
      exact laneIn_append_succ _ _ hl3 0
    rw [show rsha256_fast_x4 (h1 ++ (h2 ++ (h3 ++ h4))) (n + 1) =
      PL.laneOut (PL.loop4 (PL.laneIn (h1 ++ (h2 ++ (h3 ++ h4))) 0,
        PL.laneIn (h1 ++ (h2 ++ (h3 ++ h4))) 1, PL.laneIn (h1 ++ (h2 ++ (h3 ++ h4))) 2,
        PL.laneIn (h1 ++ (h2 ++ (h3 ++ h4))) 3) (n + 1)).1 ++
      (PL.laneOut (PL.loop4 (PL.laneIn (h1 ++ (h2 ++ (h3 ++ h4))) 0,
        PL.laneIn (h1 ++ (h2 ++ (h3 ++ h4))) 1, PL.laneIn (h1 ++ (h2 ++ (h3 ++ h4))) 2,
        PL.laneIn (h1 ++ (h2 ++ (h3 ++ h4))) 3) (n + 1)).2.1 ++
       (PL.laneOut (PL.loop4 (PL.laneIn (h1 ++ (h2 ++ (h3 ++ h4))) 0,
        PL.laneIn (h1 ++ (h2 ++ (h3 ++ h4))) 1, PL.laneIn (h1 ++ (h2 ++ (h3 ++ h4))) 2,
        PL.laneIn (h1 ++ (h2 ++ (h3 ++ h4))) 3) (n + 1)).2.2.1 ++
        PL.laneOut (PL.loop4 (PL.laneIn (h1 ++ (h2 ++ (h3 ++ h4))) 0,
        PL.laneIn (h1 ++ (h2 ++ (h3 ++ h4))) 1, PL.laneIn (h1 ++ (h2 ++ (h3 ++ h4))) 2,
        PL.laneIn (h1 ++ (h2 ++ (h3 ++ h4))) 3) (n + 1)).2.2.2)) from by
        simp [rsha256_fast_x4, List.append_assoc]]
    rw [hi0, hi1, hi2, hi3, loop4_eq]
    rfl

/-- One pipelined ARM lane iteration equals one ARM fast iteration. -/
theorem laneStep_eq_fastStep (p : V4 × V4) : PL.laneStep p = ARM.fastStep p := by
  rw [laneStepPL_spec, fastStepARM_spec]

/-- The pipelined single-lane loop equals the ARM fast loop. -/
theorem loop1_eq_fastLoop (p : V4 × V4) (n : Nat) : PL.loop1 p n = ARM.fastLoop p n := by
  induction n with
  | zero => rfl
  | succ n ih =>
    show PL.laneStep (PL.loop1 p n) = ARM.fastStep (ARM.fastLoop p n)
    rw [ih, laneStep_eq_fastStep]

/-- A lock-step two-lane loop of the modelled x64 pipelined driver is
two independent single-lane loops. -/
theorem loop2PLX64_eq (p q : V4 × V4) (n : Nat) :
    PLX64.loop2 (p, q) n = (PLX64.loop1 p n, PLX64.loop1 q n) := by
  induction n with
  | zero => rfl
  | succ n ih =>
    show (X64.fastStep (PLX64.loop2 (p, q) n).1, X64.fastStep (PLX64.loop2 (p, q) n).2) = _
    rw [ih]
    rfl

/-- A lock-step three-lane loop of the modelled x64 pipelined driver is
three independent single-lane loops. -/
theorem loop3PLX64_eq (p q r : V4 × V4) (n : Nat) :
    PLX64.loop3 (p, q, r) n = (PLX64.loop1 p n, PLX64.loop1 q n, PLX64.loop1 r n) := by
  induction n with
  | zero => rfl
  | succ n ih =>
    show (X64.fastStep (PLX64.loop3 (p, q, r) n).1, X64.fastStep (PLX64.loop3 (p, q, r) n).2.1,
      X64.fastStep (PLX64.loop3 (p, q, r) n).2.2) = _
    rw [ih]
    rfl

/-- A lock-step four-lane loop of the modelled x64 pipelined driver is
four independent single-lane loops. -/
theorem loop4PLX64_eq (p q r t : V4 × V4) (n : Nat) :
    PLX64.loop4 (p, q, r, t) n =
      (PLX64.loop1 p n, PLX64.loop1 q n, PLX64.loop1 r n, PLX64.loop1 t n) := by
  induction n with
  | zero => rfl
  | succ n ih =>
    show (X64.fastStep (PLX64.loop4 (p, q, r, t) n).1,
      X64.fastStep (PLX64.loop4 (p, q, r, t) n).2.1,
      X64.fastStep (PLX64.loop4 (p, q, r, t) n).2.2.1,
      X64.fastStep (PLX64.loop4 (p, q, r, t) n).2.2.2) = _
    rw [ih]
    rfl

/-- Lane reading of the modelled x64 pipelined driver from an appended
buffer, first lane. -/
theorem laneInX64_append_zero (h1 h2 : List Nat) (hl : h1.length = 32) :
    PLX64.laneIn (h1 ++ h2) 0 = PLX64.laneIn h1 0 := laneIn_append_zero h1 h2 hl

/-- Lane reading of the modelled x64 pipelined driver from an appended
buffer, later lanes. -/
theorem laneInX64_append_succ (h1 h2 : List Nat) (hl : h1.length = 32) (j : Nat) :
    PLX64.laneIn (h1 ++ h2) (j + 1) = PLX64.laneIn h2 j := laneIn_append_succ h1 h2 hl j

/-- The modelled two-lane x64 pipelined driver is two independent
single-lane calls. -/
theorem rsha256plx64_fast_x2_lanes (h1 h2 : List Nat) (hl1 : h1.length = 32) (n : Nat) :
    rsha256plx64_fast_x2 (h1 ++ h2) n =
      rsha256plx64_fast_x1 h1 n ++ rsha256plx64_fast_x1 h2 n := by
  cases n with
  | zero => rfl
  | succ n =>
    rw [show rsha256plx64_fast_x2 (h1 ++ h2) (n + 1) =
      PLX64.laneOut (PLX64.loop2 (PLX64.laneIn (h1 ++ h2) 0, PLX64.laneIn (h1 ++ h2) 1)
        (n + 1)).1 ++
      PLX64.laneOut (PLX64.loop2 (PLX64.laneIn (h1 ++ h2) 0, PLX64.laneIn (h1 ++ h2) 1)
        (n + 1)).2 from rfl]
    rw [laneInX64_append_zero h1 h2 hl1,
      show PLX64.laneIn (h1 ++ h2) 1 = PLX64.laneIn h2 0 from laneInX64_append_succ h1 h2 hl1 0,
      loop2PLX64_eq]
    rfl

/-- The modelled three-lane x64 pipelined driver is three independent
single-lane calls. -/
theorem rsha256plx64_fast_x3_lanes (h1 h2 h3 : List Nat) (hl1 : h1.length = 32)
    (hl2 : h2.length = 32) (n : Nat) :
    rsha256plx64_fast_x3 (h1 ++ (h2 ++ h3)) n =
      rsha256plx64_fast_x1 h1 n ++ (rsha256plx64_fast_x1 h2 n ++ rsha256plx64_fast_x1 h3 n) := by
  cases n with
  | zero => rfl
  | succ n =>
    have hi0 : PLX64.laneIn (h1 ++ (h2 ++ h3)) 0 = PLX64.laneIn h1 0 :=
      laneInX64_append_zero _ _ hl1
    have hi1 : PLX64.laneIn (h1 ++ (h2 ++ h3)) 1 = PLX64.laneIn h2 0 := by
      rw [show PLX64.laneIn (h1 ++ (h2 ++ h3)) 1 = PLX64.laneIn (h2 ++ h3) 0 from
        laneInX64_append_succ _ _ hl1 0]
      exact laneInX64_append_zero _ _ hl2
    have hi2 : PLX64.laneIn (h1 ++ (h2 ++ h3)) 2 = PLX64.laneIn h3 0 := by
      rw [show PLX64.laneIn (h1 ++ (h2 ++ h3)) 2 = PLX64.laneIn (h2 ++ h3) 1 from
        laneInX64_append_succ _ _ hl1 1]
      exact laneInX64_append_succ _ _ hl2 0
    rw [show rsha256plx64_fast_x3 (h1 ++ (h2 ++ h3)) (n + 1) =
      PLX64.laneOut (PLX64.loop3 (PLX64.laneIn (h1 ++ (h2 ++ h3)) 0,
        PLX64.laneIn (h1 ++ (h2 ++ h3)) 1, PLX64.laneIn (h1 ++ (h2 ++ h3)) 2) (n + 1)).1 ++
      (PLX64.laneOut (PLX64.loop3 (PLX64.laneIn (h1 ++ (h2 ++ h3)) 0,
        PLX64.laneIn (h1 ++ (h2 ++ h3)) 1, PLX64.laneIn (h1 ++ (h2 ++ h3)) 2) (n + 1)).2.1 ++
       PLX64.laneOut (PLX64.loop3 (PLX64.laneIn (h1 ++ (h2 ++ h3)) 0,
        PLX64.laneIn (h1 ++ (h2 ++ h3)) 1, PLX64.laneIn (h1 ++ (h2 ++ h3)) 2) (n + 1)).2.2)
      from by simp [rsha256plx64_fast_x3, List.append_assoc]]
    rw [hi0, hi1, hi2, loop3PLX64_eq]
    rfl

/-- The modelled four-lane x64 pipelined driver is four independent
single-lane calls. -/
theorem rsha256plx64_fast_x4_lanes (h1 h2 h3 h4 : List Nat) (hl1 : h1.length = 32)
    (hl2 : h2.length = 32) (hl3 : h3.length = 32) (n : Nat) :
    rsha256plx64_fast_x4 (h1 ++ (h2 ++ (h3 ++ h4))) n =
      rsha256plx64_fast_x1 h1 n ++
        (rsha256plx64_fast_x1 h2 n ++ (rsha256plx64_fast_x1 h3 n ++ rsha256plx64_fast_x1 h4 n))
      := by
  cases n with
  | zero => rfl
  | succ n =>
    have hi0 : PLX64.laneIn (h1 ++ (h2 ++ (h3 ++ h4))) 0 = PLX64.laneIn h1 0 :=
      laneInX64_append_zero _ _ hl1
    have hi1 : PLX64.laneIn (h1 ++ (h2 ++ (h3 ++ h4))) 1 = PLX64.laneIn h2 0 := by
      rw [show PLX64.laneIn (h1 ++ (h2 ++ (h3 ++ h4))) 1 = PLX64.laneIn (h2 ++ (h3 ++ h4)) 0
        from laneInX64_append_succ _ _ hl1 0]
      exact laneInX64_append_zero _ _ hl2
    have hi2 : PLX64.laneIn (h1 ++ (h2 ++ (h3 ++ h4))) 2 = PLX64.laneIn h3 0 := by
      rw [show PLX64.laneIn (h1 ++ (h2 ++ (h3 ++ h4))) 2 = PLX64.laneIn (h2 ++ (h3 ++ h4)) 1
        from laneInX64_append_succ _ _ hl1 1]
      rw [show PLX64.laneIn (h2 ++ (h3 ++ h4)) 1 = PLX64.laneIn (h3 ++ h4) 0 from
        laneInX64_append_succ _ _ hl2 0]
      exact laneInX64_append_zero _ _ hl3
    have hi3 : PLX64.laneIn (h1 ++ (h2 ++ (h3 ++ h4))) 3 = PLX64.laneIn h4 0 := by
      rw [show PLX64.laneIn (h1 ++ (h2 ++ (h3 ++ h4))) 3 = PLX64.laneIn (h2 ++ (h3 ++ h4)) 2
        from laneInX64_append_succ _ _ hl1 2]
      rw [show PLX64.laneIn (h2 ++ (h3 ++ h4)) 2 = PLX64.laneIn (h3 ++ h4) 1 from
        laneInX64_append_succ _ _ hl2 1]
      exact laneInX64_append_succ _ _ hl3 0
    rw [show rsha256plx64_fast_x4 (h1 ++ (h2 ++ (h3 ++ h4))) (n + 1) =
      PLX64.laneOut (PLX64.loop4 (PLX64.laneIn (h1 ++ (h2 ++ (h3 ++ h4))) 0,
        PLX64.laneIn (h1 ++ (h2 ++ (h3 ++ h4))) 1, PLX64.laneIn (h1 ++ (h2 ++ (h3 ++ h4))) 2,
        PLX64.laneIn (h1 ++ (h2 ++ (h3 ++ h4))) 3) (n + 1)).1 ++
      (PLX64.laneOut (PLX64.loop4 (PLX64.laneIn (h1 ++ (h2 ++ (h3 ++ h4))) 0,
        PLX64.laneIn (h1 ++ (h2 ++ (h3 ++ h4))) 1, PLX64.laneIn (h1 ++ (h2 ++ (h3 ++ h4))) 2,
        PLX64.laneIn (h1 ++ (h2 ++ (h3 ++ h4))) 3) (n + 1)).2.1 ++
       (PLX64.laneOut (PLX64.loop4 (PLX64.laneIn (h1 ++ (h2 ++ (h3 ++ h4))) 0,
        PLX64.laneIn (h1 ++ (h2 ++ (h3 ++ h4))) 1, PLX64.laneIn (h1 ++ (h2 ++ (h3 ++ h4))) 2,
        PLX64.laneIn (h1 ++ (h2 ++ (h3 ++ h4))) 3) (n + 1)).2.2.1 ++
        PLX64.laneOut (PLX64.loop4 (PLX64.laneIn (h1 ++ (h2 ++ (h3 ++ h4))) 0,
        PLX64.laneIn (h1 ++ (h2 ++ (h3 ++ h4))) 1, PLX64.laneIn (h1 ++ (h2 ++ (h3 ++ h4))) 2,
        PLX64.laneIn (h1 ++ (h2 ++ (h3 ++ h4))) 3) (n + 1)).2.2.2))
      from by simp [rsha256plx64_fast_x4, List.append_assoc]]
    rw [hi0, hi1, hi2, hi3, loop4PLX64_eq]
    rfl

/-! ## Claim theorems -/

/-- C1: for every 32-byte input, one iteration of any width-1 engine
entry point (x64 reference, x64 fast, ARM reference, ARM fast, pipelined
x1, modelled pipelined x64 x1) overwrites the buffer with the standard
single-block SHA-256 of the input under the fixed padding: standard
initial chaining value, two-sigma schedule, 64 rounds folding one
schedule word and one round constant each, and feed-forward. -/
theorem claimC1 (h : List Nat) (hwf : wfBuf 1 h) :
    rec_sha256_reference h 1 = SingleBlockHash h ∧
    rec_sha256_fast h 1 = SingleBlockHash h ∧
    rsha256_ref h 1 = SingleBlockHash h ∧
    rsha256_fast h 1 = SingleBlockHash h ∧
    rsha256_fast_x1 h 1 = SingleBlockHash h ∧
    rsha256plx64_fast_x1 h 1 = SingleBlockHash h := by
  refine ⟨?_, ?_, ?_, ?_, ?_, ?_⟩
  · rw [rec_sha256_reference_spec h hwf 1]; rfl
  · rw [rec_sha256_fast_spec h hwf 1]; rfl
  · rw [rsha256_ref_spec h hwf 1]; rfl
  · rw [rsha256_fast_spec h hwf 1]; rfl
  · rw [rsha256_fast_x1_spec h hwf 1]; rfl
  · rw [rsha256plx64_fast_x1_spec h hwf 1]; rfl

/-- Witness for C1 at the repository's self-test starting value. -/
theorem claimC1_witness : wfBuf 1 local_hashStart ∧
    (rec_sha256_reference local_hashStart 1 = SingleBlockHash local_hashStart ∧
     rec_sha256_fast local_hashStart 1 = SingleBlockHash local_hashStart ∧
     rsha256_ref local_hashStart 1 = SingleBlockHash local_hashStart ∧
     rsha256_fast local_hashStart 1 = SingleBlockHash local_hashStart ∧
     rsha256_fast_x1 local_hashStart 1 = SingleBlockHash local_hashStart ∧
     rsha256plx64_fast_x1 local_hashStart 1 = SingleBlockHash local_hashStart) :=
  ⟨by decide, claimC1 local_hashStart (by decide)⟩

/-- C2: for every 32-byte input and every iteration count, the reference
and fast drivers of the same backend produce byte-identical buffers (in
particular for 0, 1, 10 and 1000 iterations). -/
theorem claimC2 (h : List Nat) (n : Nat) (hwf : wfBuf 1 h) :
    rec_sha256_reference h n = rec_sha256_fast h n ∧ rsha256_ref h n = rsha256_fast h n := by
  constructor
  · rw [rec_sha256_reference_spec h hwf n, rec_sha256_fast_spec h hwf n]
  · rw [rsha256_ref_spec h hwf n, rsha256_fast_spec h hwf n]

/-- Witness for C2 at the self-test starting value and 1000 iterations. -/
theorem claimC2_witness : wfBuf 1 local_hashStart ∧
    (rec_sha256_reference local_hashStart 1000 = rec_sha256_fast local_hashStart 1000 ∧
     rsha256_ref local_hashStart 1000 = rsha256_fast local_hashStart 1000) :=
  ⟨by decide, claimC2 local_hashStart 1000 (by decide)⟩

/-- C3, stated literally, is false: the claimed layout
`HashValue ‖ 0x80 ‖ 26 zero bytes ‖ 8-byte length field` has 67 bytes and
cannot equal the 64-byte block the code builds (the code writes 23 zero
bytes between the `0x80` byte and the length field). -/
theorem claimC3_counterexample : ¬ (refPaddedBlock local_hashStart =
    local_hashStart ++ 0x80 :: (List.replicate 26 0 ++ [0, 0, 0, 0, 0, 0, 0x01, 0x00])) := by
  decide

/-- C3 (amended): for every 32-byte hash value, the 64-byte block fed to
the kernel on each iteration is the hash value, one `0x80` byte, 23 zero
bytes, and the 8-byte big-endian bit-length field encoding 256; its last
32 bytes are the same constant on every iteration and call. -/
theorem claimC3 (h : List Nat) (hwf : wfBuf 1 h) :
    refPaddedBlock h = h ++ 0x80 :: (List.replicate 23 0 ++ [0, 0, 0, 0, 0, 0, 0x01, 0x00]) ∧
    (refPaddedBlock h).drop 32 = padBytes ∧
    (refPaddedBlock h).length = 64 := by
  obtain ⟨hlen, hb⟩ := hwf
  have htake : h.take 32 = h := List.take_of_length_le (by omega)
  refine ⟨?_, ?_, ?_⟩
  · rw [refPaddedBlock, htake]
    rfl
  · rw [refPaddedBlock, htake, show (32 : Nat) = h.length from by omega, List.drop_left]
  · rw [refPaddedBlock, htake]
    simp only [List.length_append, padBytes, List.length_cons, List.length_replicate]
    simp
    omega

/-- Witness for the amended C3 at the self-test starting value. -/
theorem claimC3_witness : wfBuf 1 local_hashStart ∧
    (refPaddedBlock local_hashStart =
      local_hashStart ++ 0x80 :: (List.replicate 23 0 ++ [0, 0, 0, 0, 0, 0, 0x01, 0x00]) ∧
     (refPaddedBlock local_hashStart).drop 32 = padBytes ∧
     (refPaddedBlock local_hashStart).length = 64) :=
  ⟨by decide, claimC3 local_hashStart (by decide)⟩

/-- C4: every engine entry point of every lane width and backend
(including the spec-modelled x64 pipelined ones) returns its buffer
unchanged when called with zero iterations — for every buffer. -/
theorem claimC4 (h : List Nat) :
    rec_sha256_reference h 0 = h ∧ rec_sha256_fast h 0 = h ∧ rsha256_ref h 0 = h ∧
    rsha256_fast h 0 = h ∧ rsha256_fast_x1 h 0 = h ∧ rsha256_fast_x2 h 0 = h ∧
    rsha256_fast_x3 h 0 = h ∧ rsha256_fast_x4 h 0 = h ∧ rsha256plx64_fast_x1 h 0 = h ∧
    rsha256plx64_fast_x2 h 0 = h ∧ rsha256plx64_fast_x3 h 0 = h ∧
    rsha256plx64_fast_x4 h 0 = h :=
  ⟨rfl, rfl, rfl, rfl, rfl, rfl, rfl, rfl, rfl, rfl, rfl, rfl⟩

/-- C5: for widths 2, 3 and 4 (ARM pipelined and the spec-modelled x64
pipelined), a pipelined call on concatenated 32-byte lanes equals the
concatenation of independent width-1 calls with the same iteration
count. -/
theorem claimC5 (h1 h2 h3 h4 : List Nat) (k : Nat) (hl1 : h1.length = 32)
    (hl2 : h2.length = 32) (hl3 : h3.length = 32) :
    rsha256_fast_x2 (h1 ++ h2) k = rsha256_fast_x1 h1 k ++ rsha256_fast_x1 h2 k ∧
    rsha256_fast_x3 (h1 ++ (h2 ++ h3)) k =
      rsha256_fast_x1 h1 k ++ (rsha256_fast_x1 h2 k ++ rsha256_fast_x1 h3 k) ∧
    rsha256_fast_x4 (h1 ++ (h2 ++ (h3 ++ h4))) k =
      rsha256_fast_x1 h1 k ++
        (rsha256_fast_x1 h2 k ++ (rsha256_fast_x1 h3 k ++ rsha256_fast_x1 h4 k)) ∧
    rsha256plx64_fast_x2 (h1 ++ h2) k =
      rsha256plx64_fast_x1 h1 k ++ rsha256plx64_fast_x1 h2 k ∧
    rsha256plx64_fast_x3 (h1 ++ (h2 ++ h3)) k =
      rsha256plx64_fast_x1 h1 k ++ (rsha256plx64_fast_x1 h2 k ++ rsha256plx64_fast_x1 h3 k) ∧
    rsha256plx64_fast_x4 (h1 ++ (h2 ++ (h3 ++ h4))) k =
      rsha256plx64_fast_x1 h1 k ++
        (rsha256plx64_fast_x1 h2 k ++ (rsha256plx64_fast_x1 h3 k ++ rsha256plx64_fast_x1 h4 k))
      :=
  ⟨rsha256_fast_x2_lanes h1 h2 hl1 k, rsha256_fast_x3_lanes h1 h2 h3 hl1 hl2 k,
   rsha256_fast_x4_lanes h1 h2 h3 h4 hl1 hl2 hl3 k,
   rsha256plx64_fast_x2_lanes h1 h2 hl1 k, rsha256plx64_fast_x3_lanes h1 h2 h3 hl1 hl2 k,
   rsha256plx64_fast_x4_lanes h1 h2 h3 h4 hl1 hl2 hl3 k⟩

/-- Witness for C5 at four concrete distinct lanes and 3 iterations. -/
theorem claimC5_witness : local_hashStart.length = 32 ∧ local_hashEnd1x.length = 32 ∧
    (List.replicate 32 7).length = 32 ∧
    (rsha256_fast_x2 (local_hashStart ++ local_hashEnd1x) 3 =
      rsha256_fast_x1 local_hashStart 3 ++ rsha256_fast_x1 local_hashEnd1x 3 ∧
     rsha256_fast_x3 (local_hashStart ++ (local_hashEnd1x ++ List.replicate 32 7)) 3 =
      rsha256_fast_x1 local_hashStart 3 ++
        (rsha256_fast_x1 local_hashEnd1x 3 ++ rsha256_fast_x1 (List.replicate 32 7) 3) ∧
     rsha256_fast_x4
        (local_hashStart ++ (local_hashEnd1x ++ (List.replicate 32 7 ++ List.replicate 32 9))) 3
        = rsha256_fast_x1 local_hashStart 3 ++
          (rsha256_fast_x1 local_hashEnd1x 3 ++
            (rsha256_fast_x1 (List.replicate 32 7) 3 ++
              rsha256_fast_x1 (List.replicate 32 9) 3)) ∧
     rsha256plx64_fast_x2 (local_hashStart ++ local_hashEnd1x) 3 =
      rsha256plx64_fast_x1 local_hashStart 3 ++ rsha256plx64_fast_x1 local_hashEnd1x 3 ∧
     rsha256plx64_fast_x3 (local_hashStart ++ (local_hashEnd1x ++ List.replicate 32 7)) 3 =
      rsha256plx64_fast_x1 local_hashStart 3 ++
        (rsha256plx64_fast_x1 local_hashEnd1x 3 ++ rsha256plx64_fast_x1 (List.replicate 32 7) 3)
      ∧
     rsha256plx64_fast_x4
        (local_hashStart ++ (local_hashEnd1x ++ (List.replicate 32 7 ++ List.replicate 32 9))) 3
        = rsha256plx64_fast_x1 local_hashStart 3 ++
          (rsha256plx64_fast_x1 local_hashEnd1x 3 ++
            (rsha256plx64_fast_x1 (List.replicate 32 7) 3 ++
              rsha256plx64_fast_x1 (List.replicate 32 9) 3))) :=
  ⟨by decide, by decide, by decide,
   claimC5 local_hashStart local_hashEnd1x (List.replicate 32 7) (List.replicate 32 9) 3
     (by decide) (by decide) (by decide)⟩

/-- C6: the x64 and ARM implementations of the same variant compute the
same function on every 32-byte input and iteration count. -/
theorem claimC6 (h : List Nat) (n : Nat) (hwf : wfBuf 1 h) :
    rec_sha256_reference h n = rsha256_ref h n ∧ rec_sha256_fast h n = rsha256_fast h n := by
  constructor
  · rw [rec_sha256_reference_spec h hwf n, rsha256_ref_spec h hwf n]
  · rw [rec_sha256_fast_spec h hwf n, rsha256_fast_spec h hwf n]

/-- Witness for C6 at the self-test starting value and 10 iterations. -/
theorem claimC6_witness : wfBuf 1 local_hashStart ∧
    (rec_sha256_reference local_hashStart 10 = rsha256_ref local_hashStart 10 ∧
     rec_sha256_fast local_hashStart 10 = rsha256_fast local_hashStart 10) :=
  ⟨by decide, claimC6 local_hashStart 10 (by decide)⟩

/-- C7: the engine composes over the iteration count, and `n` iterations
are the `n`-fold self-application of the single-block hash. -/
theorem claimC7 (h : List Nat) (m n : Nat) (hwf : wfBuf 1 h) :
    rec_sha256_fast (rec_sha256_fast h m) n = rec_sha256_fast h (m + n) ∧
    rsha256_fast (rsha256_fast h m) n = rsha256_fast h (m + n) ∧
    rec_sha256_fast h n = hashIter h n := by
  refine ⟨?_, ?_, rec_sha256_fast_spec h hwf n⟩
  · rw [rec_sha256_fast_spec h hwf m, rec_sha256_fast_spec _ (hashIter_wf m h hwf) n,
      rec_sha256_fast_spec h hwf (m + n), hashIter_add]
  · rw [rsha256_fast_spec h hwf m, rsha256_fast_spec _ (hashIter_wf m h hwf) n,
      rsha256_fast_spec h hwf (m + n), hashIter_add]

/-- Witness for C7 at the self-test starting value, 2 then 3 iterations. -/
theorem claimC7_witness : wfBuf 1 local_hashStart ∧
    (rec_sha256_fast (rec_sha256_fast local_hashStart 2) 3 = rec_sha256_fast local_hashStart 5
     ∧ rsha256_fast (rsha256_fast local_hashStart 2) 3 = rsha256_fast local_hashStart 5 ∧
     rec_sha256_fast local_hashStart 3 = hashIter local_hashStart 3) :=
  ⟨by decide, by
    have := claimC7 local_hashStart 2 3 (by decide)
    rw [show (2 : Nat) + 3 = 5 from rfl] at this
    exact this⟩

set_option maxRecDepth 1000000 in
/-- C8: concrete vectors — from the recorded starting value, one fast
iteration (either backend) produces the recorded one-iteration vector,
and zero iterations return the start value unchanged. -/
theorem claimC8 :
    rec_sha256_fast local_hashStart 1 = local_hashEnd1x ∧
    rec_sha256_fast local_hashStart 0 = local_hashStart ∧
    rsha256_fast local_hashStart 1 = local_hashEnd1x ∧
    rsha256_fast local_hashStart 0 = local_hashStart := by
  refine ⟨by decide, rfl, by decide, rfl⟩

/-- C9: every engine entry point — the five width-1 drivers, the ARM
pipelined x2/x3/x4 and the spec-modelled x64 pipelined x1–x4 — is a
total function of its well-formed 32·N-byte buffer and a `Nat` iteration
count (hence defined for every unsigned 64-bit count, including 0 and
2^64 − 1) whose loop applies the per-iteration block function exactly
`num_iters` times: each lane of the output equals the `num_iters`-fold
hash chain of that lane, with no error outcome. -/
theorem claimC9 (h h2 h3 h4 : List Nat) (n : Nat) (hwf : wfBuf 1 h) (hwf2 : wfBuf 1 h2)
    (hwf3 : wfBuf 1 h3) (hwf4 : wfBuf 1 h4) :
    rec_sha256_reference h n = hashIter h n ∧ rec_sha256_fast h n = hashIter h n ∧
    rsha256_ref h n = hashIter h n ∧ rsha256_fast h n = hashIter h n ∧
    rsha256_fast_x1 h n = hashIter h n ∧
    rsha256_fast_x2 (h ++ h2) n = hashIter h n ++ hashIter h2 n ∧
    rsha256_fast_x3 (h ++ (h2 ++ h3)) n =
      hashIter h n ++ (hashIter h2 n ++ hashIter h3 n) ∧
    rsha256_fast_x4 (h ++ (h2 ++ (h3 ++ h4))) n =
      hashIter h n ++ (hashIter h2 n ++ (hashIter h3 n ++ hashIter h4 n)) ∧
    rsha256plx64_fast_x1 h n = hashIter h n ∧
    rsha256plx64_fast_x2 (h ++ h2) n = hashIter h n ++ hashIter h2 n ∧
    rsha256plx64_fast_x3 (h ++ (h2 ++ h3)) n =
      hashIter h n ++ (hashIter h2 n ++ hashIter h3 n) ∧
    rsha256plx64_fast_x4 (h ++ (h2 ++ (h3 ++ h4))) n =
      hashIter h n ++ (hashIter h2 n ++ (hashIter h3 n ++ hashIter h4 n)) := by
  have hl1 : h.length = 32 := by have := hwf.1; omega
  have hl2 : h2.length = 32 := by have := hwf2.1; omega
  have hl3 : h3.length = 32 := by have := hwf3.1; omega
  refine ⟨rec_sha256_reference_spec h hwf n, rec_sha256_fast_spec h hwf n,
    rsha256_ref_spec h hwf n, rsha256_fast_spec h hwf n, rsha256_fast_x1_spec h hwf n,
    ?_, ?_, ?_, rsha256plx64_fast_x1_spec h hwf n, ?_, ?_, ?_⟩
  · rw [rsha256_fast_x2_lanes h h2 hl1 n, rsha256_fast_x1_spec h hwf n,
      rsha256_fast_x1_spec h2 hwf2 n]
  · rw [rsha256_fast_x3_lanes h h2 h3 hl1 hl2 n, rsha256_fast_x1_spec h hwf n,
      rsha256_fast_x1_spec h2 hwf2 n, rsha256_fast_x1_spec h3 hwf3 n]
  · rw [rsha256_fast_x4_lanes h h2 h3 h4 hl1 hl2 hl3 n, rsha256_fast_x1_spec h hwf n,
      rsha256_fast_x1_spec h2 hwf2 n, rsha256_fast_x1_spec h3 hwf3 n,
      rsha256_fast_x1_spec h4 hwf4 n]
  · rw [rsha256plx64_fast_x2_lanes h h2 hl1 n, rsha256plx64_fast_x1_spec h hwf n,
      rsha256plx64_fast_x1_spec h2 hwf2 n]
  · rw [rsha256plx64_fast_x3_lanes h h2 h3 hl1 hl2 n, rsha256plx64_fast_x1_spec h hwf n,
      rsha256plx64_fast_x1_spec h2 hwf2 n, rsha256plx64_fast_x1_spec h3 hwf3 n]
  · rw [rsha256plx64_fast_x4_lanes h h2 h3 h4 hl1 hl2 hl3 n, rsha256plx64_fast_x1_spec h hwf n,
      rsha256plx64_fast_x1_spec h2 hwf2 n, rsha256plx64_fast_x1_spec h3 hwf3 n,
      rsha256plx64_fast_x1_spec h4 hwf4 n]

/-- Witness for C9: four concrete well-formed lanes at the maximal
unsigned 64-bit iteration count. -/
theorem claimC9_witness : wfBuf 1 local_hashStart ∧ wfBuf 1 local_hashEnd1x ∧
    wfBuf 1 (List.replicate 32 7) ∧ wfBuf 1 (List.replicate 32 9) ∧
    (rec_sha256_reference local_hashStart 18446744073709551615 =
      hashIter local_hashStart 18446744073709551615 ∧
     rec_sha256_fast local_hashStart 18446744073709551615 =
      hashIter local_hashStart 18446744073709551615 ∧
     rsha256_ref local_hashStart 18446744073709551615 =
      hashIter local_hashStart 18446744073709551615 ∧
     rsha256_fast local_hashStart 18446744073709551615 =
      hashIter local_hashStart 18446744073709551615 ∧
     rsha256_fast_x1 local_hashStart 18446744073709551615 =
      hashIter local_hashStart 18446744073709551615 ∧
     rsha256_fast_x2 (local_hashStart ++ local_hashEnd1x) 18446744073709551615 =
      hashIter local_hashStart 18446744073709551615 ++
        hashIter local_hashEnd1x 18446744073709551615 ∧
     rsha256_fast_x3 (local_hashStart ++ (local_hashEnd1x ++ List.replicate 32 7))
        18446744073709551615 =
      hashIter local_hashStart 18446744073709551615 ++
        (hashIter local_hashEnd1x 18446744073709551615 ++
          hashIter (List.replicate 32 7) 18446744073709551615) ∧
     rsha256_fast_x4
        (local_hashStart ++ (local_hashEnd1x ++ (List.replicate 32 7 ++ List.replicate 32 9)))
        18446744073709551615 =
      hashIter local_hashStart 18446744073709551615 ++
        (hashIter local_hashEnd1x 18446744073709551615 ++
          (hashIter (List.replicate 32 7) 18446744073709551615 ++
            hashIter (List.replicate 32 9) 18446744073709551615)) ∧
     rsha256plx64_fast_x1 local_hashStart 18446744073709551615 =
      hashIter local_hashStart 18446744073709551615 ∧
     rsha256plx64_fast_x2 (local_hashStart ++ local_hashEnd1x) 18446744073709551615 =
      hashIter local_hashStart 18446744073709551615 ++
        hashIter local_hashEnd1x 18446744073709551615 ∧
     rsha256plx64_fast_x3 (local_hashStart ++ (local_hashEnd1x ++ List.replicate 32 7))
        18446744073709551615 =
      hashIter local_hashStart 18446744073709551615 ++
        (hashIter local_hashEnd1x 18446744073709551615 ++
          hashIter (List.replicate 32 7) 18446744073709551615) ∧
     rsha256plx64_fast_x4
        (local_hashStart ++ (local_hashEnd1x ++ (List.replicate 32 7 ++ List.replicate 32 9)))
        18446744073709551615 =
      hashIter local_hashStart 18446744073709551615 ++
        (hashIter local_hashEnd1x 18446744073709551615 ++
          (hashIter (List.replicate 32 7) 18446744073709551615 ++
            hashIter (List.replicate 32 9) 18446744073709551615))) :=
  ⟨by decide, by decide, by decide, by decide,
   claimC9 local_hashStart local_hashEnd1x (List.replicate 32 7) (List.replicate 32 9)
     18446744073709551615 (by decide) (by decide) (by decide) (by decide)⟩

/-- C10: the pipelined width-1 entry point computes exactly the same
function as the standalone ARM fast driver, on every input buffer and
iteration count. -/
theorem claimC10 (h : List Nat) (n : Nat) : rsha256_fast_x1 h n = rsha256_fast h n := by
  cases n with
  | zero => rfl
  | succ n =>
    rw [show rsha256_fast_x1 h (n + 1) = PL.laneOut (PL.loop1 (PL.laneIn h 0) (n + 1)) from rfl,
      loop1_eq_fastLoop]
    rfl

end RS
